import Mathlib

/-!
Verification of the suspenders-elasticsearch query builder.

This file is a shallow embedding of the core of the repository:

* `src/suspenders/queries.py` — query variants and `BoolQuery` validation;
* `src/suspenders/query_set.py` — `FilterDict`, `SuspendersQuerySet`
  (copy-on-write mutators, `to_dict` / `_serialized_query` compilation,
  `execute` / `count` caching);
* `src/suspenders/result_set.py` — `ResultSet` decoding;
* `src/suspenders/utils.py` — transport-error classification;
* `src/suspenders/app/models.py` — model reconstruction (`type_from_fields`).

Python dictionaries that travel to/from the search engine are embedded as the
insertion-ordered JSON-like type `J`.  Python exceptions are embedded as the
`Err` type and fallible code returns `Except Err _`.  Mutable Python containers
(the query lists, the sort list, the `FilterDict` and the aggregation list of a
query set) are embedded as references into an explicit heap, so that the
copy-on-write behaviour of the `@clone` decorator is a provable property rather
than an artifact of the embedding.
-/

namespace Suspenders

/-- Insertion-ordered JSON-like documents: the shape of every Python dict that
the library serializes.  `numLit` carries a numeric literal that is never
computed with (for example the `0.5` default of `negative_boost`). -/
inductive J where
  | null : J
  | bool (b : Bool) : J
  | int (n : Int) : J
  | numLit (s : String) : J
  | str (s : String) : J
  | arr (elems : List J) : J
  | obj (fields : List (String × J)) : J
deriving Repr

mutual

/-- Decidable equality for `J` (the nested occurrence of `List` prevents the
automatic derivation). -/
def decEqJ : (a b : J) → Decidable (a = b)
  | .null, .null => isTrue rfl
  | .bool x, .bool y =>
    match decEq x y with
    | isTrue h => isTrue (by rw [h])
    | isFalse h => isFalse (by intro e; cases e; exact h rfl)
  | .int x, .int y =>
    match decEq x y with
    | isTrue h => isTrue (by rw [h])
    | isFalse h => isFalse (by intro e; cases e; exact h rfl)
  | .numLit x, .numLit y =>
    match decEq x y with
    | isTrue h => isTrue (by rw [h])
    | isFalse h => isFalse (by intro e; cases e; exact h rfl)
  | .str x, .str y =>
    match decEq x y with
    | isTrue h => isTrue (by rw [h])
    | isFalse h => isFalse (by intro e; cases e; exact h rfl)
  | .arr x, .arr y =>
    match decEqJList x y with
    | isTrue h => isTrue (by rw [h])
    | isFalse h => isFalse (by intro e; cases e; exact h rfl)
  | .obj x, .obj y =>
    match decEqJFields x y with
    | isTrue h => isTrue (by rw [h])
    | isFalse h => isFalse (by intro e; cases e; exact h rfl)
  | .null, .bool _ | .null, .int _ | .null, .numLit _ | .null, .str _ | .null, .arr _ | .null, .obj _
  | .bool _, .null | .bool _, .int _ | .bool _, .numLit _ | .bool _, .str _ | .bool _, .arr _ | .bool _, .obj _
  | .int _, .null | .int _, .bool _ | .int _, .numLit _ | .int _, .str _ | .int _, .arr _ | .int _, .obj _
  | .numLit _, .null | .numLit _, .bool _ | .numLit _, .int _ | .numLit _, .str _ | .numLit _, .arr _ | .numLit _, .obj _
  | .str _, .null | .str _, .bool _ | .str _, .int _ | .str _, .numLit _ | .str _, .arr _ | .str _, .obj _
  | .arr _, .null | .arr _, .bool _ | .arr _, .int _ | .arr _, .numLit _ | .arr _, .str _ | .arr _, .obj _
  | .obj _, .null | .obj _, .bool _ | .obj _, .int _ | .obj _, .numLit _ | .obj _, .str _ | .obj _, .arr _ =>
    isFalse nofun

/-- Decidable equality for lists of `J`. -/
def decEqJList : (x y : List J) → Decidable (x = y)
  | [], [] => isTrue rfl
  | a :: as, b :: bs =>
    match decEqJ a b, decEqJList as bs with
    | isTrue h1, isTrue h2 => isTrue (by rw [h1, h2])
    | isFalse h1, _ => isFalse (by intro e; cases e; exact h1 rfl)
    | _, isFalse h2 => isFalse (by intro e; cases e; exact h2 rfl)
  | [], _ :: _ => isFalse nofun
  | _ :: _, [] => isFalse nofun

/-- Decidable equality for embedded dict field lists. -/
def decEqJFields : (x y : List (String × J)) → Decidable (x = y)
  | [], [] => isTrue rfl
  | (k1, v1) :: xs, (k2, v2) :: ys =>
    match decEq k1 k2, decEqJ v1 v2, decEqJFields xs ys with
    | isTrue h1, isTrue h2, isTrue h3 => isTrue (by rw [h1, h2, h3])
    | isFalse h1, _, _ => isFalse (by intro e; cases e; exact h1 rfl)
    | _, isFalse h2, _ => isFalse (by intro e; cases e; exact h2 rfl)
    | _, _, isFalse h3 => isFalse (by intro e; cases e; exact h3 rfl)
  | [], _ :: _ => isFalse nofun
  | _ :: _, [] => isFalse nofun

end

instance : DecidableEq J := decEqJ

/-- Embedded Python exceptions, carrying their message or offending key. -/
inductive Err where
  | typeErr (msg : String)
  | keyErr (key : String)
  | valueErr (msg : String)
  | runtimeErr (msg : String)
  | invalidQuerySet (msg : String)
  | attributeErr (msg : String)
deriving DecidableEq, Repr

namespace J

/-- Lookup of a key in an embedded Python dict (first binding wins; the
embedding never constructs duplicate keys). -/
def lookup : J → String → Option J
  | .obj fields, k => (fields.find? (fun p => p.1 == k)).map Prod.snd
  | _, _ => none

/-- Lookup `d[k]` with a default, mirroring `dict.get(k, default)`. -/
def lookupD (d : J) (k : String) (dflt : J) : J := (d.lookup k).getD dflt

/-- Whether `d` is a Python dict holding the key `k`. -/
def hasKey (d : J) (k : String) : Bool := (d.lookup k).isSome

/-- Python truthiness of an embedded value. -/
def truthy : J → Bool
  | .null => false
  | .bool b => b
  | .int n => n ≠ 0
  | .numLit s => s ≠ "0"
  | .str s => s ≠ ""
  | .arr elems => !elems.isEmpty
  | .obj fields => !fields.isEmpty

end J

/-- Assignment `d[k] = v` on an association list: replaces the binding in place if the key
exists (Python dicts keep the original position) and appends it otherwise. -/
def assocSet (fields : List (String × J)) (k : String) (v : J) :
    List (String × J) :=
  if fields.any (fun p => p.1 == k) then
    fields.map (fun p => if p.1 == k then (k, v) else p)
  else fields ++ [(k, v)]

/-- Embedding of `res.update(d)` for two embedded dict field lists. -/
def assocUpdate (fields : List (String × J)) (extra : List (String × J)) :
    List (String × J) :=
  extra.foldl (fun acc p => assocSet acc p.1 p.2) fields

end Suspenders

namespace Suspenders

/-! ## Filters

`src/suspenders/filters.py` (the `Filter` class, `parse_filter` and
`parse_kwargs`) is not present under `src/`; only its callers
(`query_set.py`) are.  The definitions below are therefore modelled from the
spec (§3 "Filter", §4.1 "Filter & merge protocol") rather than translated from
source, as the spec directs for code of the repository missing from `src/`. -/

/-- Modelled from the spec: the operator kind of a filter
(spec §3: "field name, operator kind (eq/range/in/prefix/exists/...)").
`filters.py` is absent from `src/`. -/
inductive FKind where
  | eqK
  | inK
  | rangeK
  | prefixOf
deriving DecidableEq, Repr

/-- Modelled from the spec: a typed predicate object with a field name, an
operator kind and its value(s) (spec §3 "Filter"); immutable after
construction.  `filters.py` is absent from `src/`. -/
structure Filter where
  fieldName : String
  kind : FKind
  values : List J
deriving DecidableEq, Repr

namespace Filter

/-- Modelled from the spec: `is_multi` is "whether it expands to multiple
sub-clauses, e.g. membership" — true exactly for membership filters. -/
def is_multi (f : Filter) : Bool := f.kind = .inK

/-- Modelled from the spec: the filter key used by `FilterDict`; the spec keys
filters by field (two filters of the same field and kind collide). -/
def name (f : Filter) : String := f.fieldName

/-- Order-preserving union of two value lists ("value set is the union"). -/
def unionValues (a b : List J) : List J :=
  a ++ b.filter (fun v => !(decide (v ∈ a)))

/-- Modelled from the spec (§4.1): "Merge is defined only between same-field,
same-kind filters"; "two `field in \x7ba,b\x7d` and `field in \x7bb,c\x7d`
merge to `field in \x7ba,b,c\x7d`"; "merge across incompatible kinds returns
none".  Membership filters merge by value-set union; any other combination
reports no merge. -/
def merge (f other : Filter) : Option Filter :=
  if f.fieldName = other.fieldName ∧ f.kind = other.kind ∧ f.kind = .inK then
    some { f with values := unionValues f.values other.values }
  else
    none

/-- Modelled from the spec: `serialize() -> DSL fragment` per variant
(membership serializes as a `terms` clause, equality as `term`, and so on). -/
def to_dict (f : Filter) : J :=
  match f.kind with
  | .inK => .obj [("terms", .obj [(f.fieldName, .arr f.values)])]
  | .eqK => .obj [("term", .obj [(f.fieldName, f.values.headD .null)])]
  | .rangeK => .obj [("range", .obj [(f.fieldName, f.values.headD .null)])]
  | .prefixOf => .obj [("prefix", .obj [(f.fieldName, f.values.headD .null)])]

end Filter

/-! ## FilterDict (`query_set.py` lines 38–96) -/

/-- The contents of a `FilterDict`: an insertion-ordered mapping from filter
key to `(polarity, Filter)`, with polarity `"+"` or `"-"` as in the source. -/
abbrev FD := List (String × String × Filter)

namespace FD

/-- Membership / lookup in the insertion-ordered dict. -/
def lookup (fd : FD) (key : String) : Option (String × Filter) :=
  (List.find? (fun p => p.1 == key) fd).map Prod.snd

/-- Embedding of `self.filters[key] = value`: replace in place or append. -/
def set (fd : FD) (key : String) (pol : String) (f : Filter) : FD :=
  if (List.any fd (fun p => p.1 == key)) then
    List.map (fun p => if p.1 == key then (key, pol, f) else p) fd
  else fd ++ [(key, pol, f)]

/-- Embedding of `FilterDict.has_values`: `len(self.filters) > 0`. -/
def has_values (fd : FD) : Bool := !(List.isEmpty fd)

/-- Embedding of `FilterDict.positive_filters`: the filters stored with polarity `"+"`,
in insertion order. -/
def positive_filters (fd : FD) : List Filter :=
  List.filterMap (fun p => if p.2.1 = "+" then some p.2.2 else none) fd

/-- Embedding of `FilterDict.negative_filters`: the filters stored with polarity `"-"`. -/
def negative_filters (fd : FD) : List Filter :=
  List.filterMap (fun p => if p.2.1 = "-" then some p.2.2 else none) fd

/-- Embedding of `FilterDict.__check` (query_set.py 52–71).  If the key is taken, a merge is
attempted first; a successful merge is silent.  Only when the merge fails is
the overwrite reported: raised (`ValueError`) when `settings.DEBUG` is on,
logged otherwise.  The returned flag records whether a warning was logged. -/
def check (debug : Bool) (fd : FD) (key : String) (value : Filter) :
    Except Err (Filter × Bool) :=
  match lookup fd key with
  | some (_, prev) =>
    match prev.merge value with
    | some merged => .ok (merged, false)
    | none =>
      if debug then
        .error (.valueErr ("[" ++ key ++ "] already set within query set and is being overriden!"))
      else
        .ok (value, true)
  | none => .ok (value, false)

/-- Embedding of `FilterDict.add_positive` (query_set.py 80–84): membership filters get a
`"+"`-prefixed key, the value passes through `__check`, and the (possibly
merged) filter is stored with polarity `"+"`. -/
def add_positive (debug : Bool) (fd : FD) (key : String) (value : Filter) :
    Except Err (FD × Bool) := do
  let key := if value.is_multi then "+" ++ key else key
  let (nv, logged) ← check debug fd key value
  .ok (set fd key "+" nv, logged)

/-- Embedding of `FilterDict.add_negative` (query_set.py 86–90): as `add_positive` with a
`"-"`-prefixed key for membership filters and polarity `"-"`. -/
def add_negative (debug : Bool) (fd : FD) (key : String) (value : Filter) :
    Except Err (FD × Bool) := do
  let key := if value.is_multi then "-" ++ key else key
  let (nv, logged) ← check debug fd key value
  .ok (set fd key "-" nv, logged)

end FD

end Suspenders

namespace Suspenders

/-! ## Queries (`queries.py`) -/

/-- Python truthiness of the `minimum_should_match` argument, which is either
`None` or an `int` in the source (`if self.minimum_should_match:`). -/
def msmTruthy : Option Int → Bool
  | some v => v != 0
  | none => false

/-- The query objects of `queries.py` that the query-set compiler builds, plus
`filterQ` for `Filter` objects used in query position (the source passes
filters wherever an object with `to_dict` is accepted) and `rawQ` for an
arbitrary pre-built query object whose serialization is the carried document
(the `add_optional_query` entry point accepts any `Query`).  `boolQ` values
are produced by `boolQueryMk` below, which performs the constructor
validation. -/
inductive Query where
  | matchAll
  | matchQ (fieldName value : String) (maxExpansions : Int)
  | filterQ (f : Filter)
  | rawQ (d : J)
  | constScore (filt : Query)
  | boolQ (minimumShouldMatch : Option Int) (must maybe mustNot : List Query)
      (filt : Option Query)
  | boosting (positive : Option Query) (negative : List Query)
      (negativeBoost : J)
deriving Repr

mutual

/-- Embedding of `to_dict` of the query hierarchy (`queries.py`).

* `matchAll`: `MatchAllQuery.to_dict` (line 82).
* `matchQ`: `MatchQuery.to_dict` (line 228); `search_type` is stored by the
  constructor but never serialized.
* `constScore`: `ConstantScoreQuery.to_dict` (line 106).
* `boolQ`: `BoolQuery.to_dict` (line 298) — keys in source order
  (`minimum_should_match`, `must`, `should`, `must_not`, `filter`), each
  guarded by Python truthiness of the stored clause.
* `boosting`: `NegativeBoost.to_dict` (line 26).  Its helper
  `_serialize_inner_queries` passes a `dict` through unchanged and otherwise
  iterates its argument; the compiler always passes the positive side as a
  `Query` *object*, which is neither a dict nor iterable, so serializing a
  boosting query with a positive part raises `TypeError`. -/
def qToDict : Query → Except Err J
  | .matchAll => .ok (.obj [("match_all", .obj [])])
  | .matchQ f v maxExp =>
    .ok (.obj [("match", .obj [(f, .obj [("query", .str v),
      ("max_expansions", .int maxExp)])])])
  | .filterQ flt => .ok (Filter.to_dict flt)
  | .rawQ d => .ok d
  | .constScore q => do
    let fj ← qToDict q
    .ok (.obj [("constant_score", .obj [("filter", fj)])])
  | .boolQ msm must maybe mustNot filt => do
    let mj ← qListToDict must
    let sj ← qListToDict maybe
    let nj ← qListToDict mustNot
    let fj ← qOptToDict filt
    let inner :=
      (if msmTruthy msm then [("minimum_should_match", J.int (msm.getD 0))] else [])
      ++ (if must.isEmpty then [] else [("must", J.arr mj)])
      ++ (if maybe.isEmpty then [] else [("should", J.arr sj)])
      ++ (if mustNot.isEmpty then [] else [("must_not", J.arr nj)])
      ++ (match fj with | some d => [("filter", d)] | none => [])
    .ok (.obj [("bool", .obj inner)])
  | .boosting pos neg nb =>
    match pos with
    | some _ => .error (.typeErr "object is not iterable")
    | none => do
      let nj ← qListToDict neg
      let inner := [("negative_boost", nb)]
        ++ (if neg.isEmpty then [] else [("negative", J.arr nj)])
      .ok (.obj [("boosting", .obj inner)])

/-- Embedding of `_serialize_inner_queries` over a list of queries. -/
def qListToDict : List Query → Except Err (List J)
  | [] => .ok []
  | q :: qs => do
    let d ← qToDict q
    let ds ← qListToDict qs
    .ok (d :: ds)

/-- Serialization of an optional sub-query (`if self.filter:` guard). -/
def qOptToDict : Option Query → Except Err (Option J)
  | none => .ok none
  | some q => do
    let d ← qToDict q
    .ok (some d)

end

/-- Embedding of `BoolQuery.__init__` (queries.py 261–293): the constructor validation,
performed in source order.  Absent clause arguments (`None` in Python) and
empty lists have the same truthiness and are both embedded as `[]`; the
unused `options` argument is omitted.

1. `minimum_should_match` truthy without optional (`maybe`) clauses raises
   `ValueError`;
2. `must_not` clauses without `must`, `maybe` or `acts_as_filter=True` raise
   `InvalidQuerySet` (the `filter` argument is *not* consulted);
3. no `must`, `maybe` or `must_not` clause at all raises `InvalidQuerySet`
   (again regardless of `filter`). -/
def boolQueryMk (must maybe mustNot : List Query) (filt : Option Query)
    (minimum_should_match : Option Int) (acts_as_filter : Bool) :
    Except Err Query :=
  if msmTruthy minimum_should_match ∧ maybe.isEmpty then
    .error (.valueErr
      "minimum_should_match can only be used in conjuction with optional matches.")
  else if ¬ mustNot.isEmpty ∧ must.isEmpty ∧ maybe.isEmpty ∧ ¬ acts_as_filter then
    .error (.invalidQuerySet
      "It is not possible to search on documents that only consists of a must_not clauses")
  else if must.isEmpty ∧ maybe.isEmpty ∧ mustNot.isEmpty then
    .error (.invalidQuerySet
      "A must or should clause is necessary to execute a Boolean Query")
  else
    .ok (.boolQ minimum_should_match must maybe mustNot filt)

/-! ## Aggregations (`aggregations.py`) -/

/-- Embedding of `TopHits` (aggregations.py 4–56): name (default `"top_hits"`), per-bucket
hit count and raw sort spec. -/
structure TopHits where
  name : String
  size : Int
  sort : J
deriving Repr

/-- Embedding of `TopHits.serialize` (aggregations.py 28–56). -/
def TopHits.serialize (th : TopHits) : J :=
  .obj [(th.name, .obj [("top_hits",
    .obj [("sort", th.sort), ("size", .int th.size)])])]

/-- The terms aggregation stored by `SuspendersQuerySet.aggregation`.  The
`TermsAggregation` class itself is imported by `query_set.py` but absent from
`src/`; its fields and serialization are those of `TermsFilter`
(aggregations.py 59–129), the terms-aggregation implementation present in
source, which carries the identical constructor signature used at the call
site. -/
structure Agg where
  name : String
  fieldName : String
  size : Int
  order : J
  includeJ : J
  excludeJ : J
  regex : J
  regexFlags : J
  script : J
  minDocCount : Option Int
  withTopHits : Option TopHits
deriving Repr

/-- Embedding of `TermsFilter.serialize` (aggregations.py 99–129), keys in source order;
an order value outside the four permitted keys raises `RuntimeError`; `regex`
wins over `script` when both are truthy. -/
def Agg.serialize (a : Agg) : Except Err J := do
  let data := [("field", J.str a.fieldName)]
  let data := data ++
    (match a.minDocCount with
     | some n => [("min_doc_count", J.int n)]
     | none => [])
  let data := data ++ (if a.size != 0 then [("size", J.int a.size)] else [])
  let data ←
    if J.truthy a.order then
      if a.order = J.str "count" ∨ a.order = J.str "term" ∨
          a.order = J.str "reverse_count" ∨ a.order = J.str "reverse_term" then
        pure (data ++ [("order", a.order)])
      else
        Except.error (Err.runtimeErr "Invalid order value")
    else
      pure data
  let data := data ++ (if J.truthy a.includeJ then [("include", a.includeJ)] else [])
  let data := data ++ (if J.truthy a.excludeJ then [("exclude", a.excludeJ)] else [])
  let data := data ++
    (if J.truthy a.regex then
      [("regex", a.regex)]
      ++ (if J.truthy a.regexFlags then [("regex_flags", a.regexFlags)] else [])
    else if J.truthy a.script then [("script", a.script)]
    else [])
  let inner := [("terms", J.obj data)] ++
    (match a.withTopHits with
     | some th => [("aggregations", TopHits.serialize th)]
     | none => [])
  pure (J.obj [(a.name, J.obj inner)])

/-- Embedding of `_serialized_aggregations` (query_set.py 375–381): start from an empty
dict and `res.update(agg.to_dict())` for each aggregation in order. -/
def serializedAggregations (aggs : List Agg) : Except Err J := do
  let fields ← aggs.foldlM
    (fun acc a => do
      let d ← Agg.serialize a
      match d with
      | .obj fs => pure (assocUpdate acc fs)
      | _ => pure acc)
    []
  pure (J.obj fields)

end Suspenders

namespace Suspenders

/-! ## Result sets (`result_set.py`) -/

/-- Subscript `d[k]` on an embedded Python value: `KeyError` when a dict lacks the key,
`TypeError` when the value is not subscriptable by a string. -/
def getKey (d : J) (k : String) : Except Err J :=
  match d with
  | .obj _ =>
    match J.lookup d k with
    | some v => .ok v
    | none => .error (.keyErr k)
  | _ => .error (.typeErr "not subscriptable")

/-- Decoding of `hits["total"]` (result_set.py 79–94): a missing key (hit
tracking off) leaves the total `None` and the relation attribute unset; an
integer total (ES6 shape; Python `bool` included, being an `int` subclass)
gives relation `"eq"`; any other value is subscripted for `value` and
`relation` (ES7 shape). -/
def decodeTotal : Option J → Except Err (Option J × Option J)
  | Option.none => .ok (Option.none, Option.none)
  | some (J.int n) => .ok (some (J.int n), some (J.str "eq"))
  | some (J.bool b) => .ok (some (J.bool b), some (J.str "eq"))
  | some t => do
    let v ← getKey t "value"
    let r ← getKey t "relation"
    .ok (some v, some r)

/-- Aggregation-bucket extraction (result_set.py 97–133): enter the
`__sampler__` wrapper when present, then collect `results["buckets"]` for
every dict-valued entry, skipping non-dict entries. -/
def extractAggs : Option J → Except Err (List (String × J))
  | Option.none => .ok []
  | some aggsJ =>
    let items := if J.hasKey aggsJ "__sampler__"
      then J.lookupD aggsJ "__sampler__" J.null else aggsJ
    match items with
    | .obj fields =>
      fields.foldlM
        (fun acc p =>
          match p.2 with
          | .obj _ => do
            let b ← getKey p.2 "buckets"
            pure (acc ++ [(p.1, b)])
          | _ => pure acc)
        []
    | _ => .error (.attributeErr "items")

/-- The state a `ResultSet` derives from a raw response (result_set.py
38–137).  `total` and `totalRelation` keep the raw embedded values (`None`
embeds as `Option.none`). -/
structure RS where
  rawDocs : List J
  shards : J
  total : Option J
  totalRelation : Option J
  maxScore : J
  aggregations : List (String × J)
deriving DecidableEq, Repr

/-- Embedding of `ResultSet.__init__` (result_set.py 38–137).  The source stores
`response["hits"]["hits"]` unchecked and only `len()` later requires a list;
responses carry an array there, which the embedding requires up front. -/
def mkResultSet (resp : J) : Except Err RS := do
  let hitsSection ← getKey resp "hits"
  let docsJ ← getKey hitsSection "hits"
  let docs ← match docsJ with
    | .arr l => pure l
    | _ => Except.error (Err.typeErr "hits is not a list")
  let shards ← getKey resp "_shards"
  let (total, rel) ← decodeTotal (J.lookup hitsSection "total")
  let maxScore ← getKey hitsSection "max_score"
  let aggs ← extractAggs (J.lookup resp "aggregations")
  pure { rawDocs := docs, shards := shards, total := total,
         totalRelation := rel, maxScore := maxScore, aggregations := aggs }

/-- Embedding of `ResultSet.__len__` (result_set.py 164–165): the number of raw hit
documents. -/
def RS.len (rs : RS) : Nat := rs.rawDocs.length

/-- Embedding of `ResultSet.__bool__` (result_set.py 167–168): literally
`len(self._documents) == 0`. -/
def RS.boolVal (rs : RS) : Bool := rs.rawDocs.length == 0

/-- The sentinel raw response of `SuspendersQuerySet.empty_result_set`
(query_set.py 266–271). -/
def emptySentinelResponse : J :=
  .obj [("hits", .obj [("hits", .arr []), ("total", .int 0),
        ("max_score", .int 0)]),
        ("_shards", .int 0)]

/-- Embedding of `SuspendersQuerySet.empty_result_set`: the sentinel response decoded by
the `ResultSet` constructor. -/
def emptyResultSet : Except Err RS := mkResultSet emptySentinelResponse

/-! ## The query-set heap

The `@clone` decorator (query_set.py 29–35) copies the instance before every
mutator runs, and `copy` (145–175) rebuilds each list/`FilterDict` attribute
with `list(value)` / `value.copy()`.  To make copy-on-write a provable
property, the four kinds of mutable containers live in an explicit heap and
query sets hold references into it. -/

/-- The container heap: one store per container element type. -/
structure Heap where
  queryStore : List (List Query)
  sortStore : List (List (String × String))
  filterStore : List FD
  aggStore : List (List Agg)

/-- The empty heap. -/
def emptyHeap : Heap := ⟨[], [], [], []⟩

/-- Read a query-list container (out-of-range references read as empty). -/
def hGetQ (h : Heap) (r : Nat) : List Query := h.queryStore.getD r []

/-- Allocate a fresh query-list container. -/
def allocQ (h : Heap) (v : List Query) : Heap × Nat :=
  ({ h with queryStore := h.queryStore ++ [v] }, h.queryStore.length)

/-- Overwrite a query-list container in place. -/
def setQ (h : Heap) (r : Nat) (v : List Query) : Heap :=
  { h with queryStore := h.queryStore.set r v }

/-- Read a sort-list container. -/
def hGetS (h : Heap) (r : Nat) : List (String × String) := h.sortStore.getD r []

/-- Allocate a fresh sort-list container. -/
def allocS (h : Heap) (v : List (String × String)) : Heap × Nat :=
  ({ h with sortStore := h.sortStore ++ [v] }, h.sortStore.length)

/-- Read a `FilterDict` container. -/
def hGetF (h : Heap) (r : Nat) : FD := h.filterStore.getD r []

/-- Allocate a fresh `FilterDict` container. -/
def allocF (h : Heap) (v : FD) : Heap × Nat :=
  ({ h with filterStore := h.filterStore ++ [v] }, h.filterStore.length)

/-- Overwrite a `FilterDict` container in place. -/
def setF (h : Heap) (r : Nat) (v : FD) : Heap :=
  { h with filterStore := h.filterStore.set r v }

/-- Read an aggregation-list container. -/
def hGetA (h : Heap) (r : Nat) : List Agg := h.aggStore.getD r []

/-- Allocate a fresh aggregation-list container. -/
def allocA (h : Heap) (v : List Agg) : Heap × Nat :=
  ({ h with aggStore := h.aggStore ++ [v] }, h.aggStore.length)

/-- Overwrite an aggregation-list container in place. -/
def setA (h : Heap) (r : Nat) (v : List Agg) : Heap :=
  { h with aggStore := h.aggStore.set r v }

/-! ## SuspendersQuerySet state -/

/-- The attributes of a `SuspendersQuerySet` (query_set.py 99–143).  The
container attributes are references into the heap; the Elasticsearch
connection handle is opaque to compilation and omitted. -/
structure QS where
  minScore : Option Int
  fromV : Int
  pageSize : Int
  sortRef : Nat
  mustRef : Nat
  optRef : Nat
  filtersRef : Nat
  negRef : Nat
  aggsRef : Nat
  isNoneSet : Bool
  resultSet : Option RS
  minimumShouldMatch : Int
  aggregationsUseSampler : Bool
  trackTotalHits : Bool
deriving DecidableEq, Repr

/-- Embedding of `SuspendersQuerySet.__init__` (query_set.py 120–143): fresh empty
containers and the documented scalar defaults. -/
def initQS (h : Heap) : Heap × QS :=
  let (h1, mustR) := allocQ h []
  let (h2, optR) := allocQ h1 []
  let (h3, negR) := allocQ h2 []
  let (h4, sortR) := allocS h3 []
  let (h5, filtR) := allocF h4 []
  let (h6, aggR) := allocA h5 []
  (h6,
   { minScore := Option.none, fromV := 0, pageSize := 10, sortRef := sortR,
     mustRef := mustR, optRef := optR, filtersRef := filtR, negRef := negR,
     aggsRef := aggR, isNoneSet := false, resultSet := Option.none,
     minimumShouldMatch := 1, aggregationsUseSampler := false,
     trackTotalHits := false })

/-- Embedding of `SuspendersQuerySet.copy` (query_set.py 145–175): a fresh instance whose
list attributes are rebound to `list(value)` copies and whose `FilterDict` is
rebound to `value.copy()`; scalars are copied by value; `_result_set` is not
in the copied attribute list, so the copy starts uncached.  (The fresh
containers made by `__init__` inside `copy` are immediately rebound away and
elided here; only the final allocations are modelled.) -/
def copyQS (h : Heap) (q : QS) : Heap × QS :=
  let (h1, mustR) := allocQ h (hGetQ h q.mustRef)
  let (h2, optR) := allocQ h1 (hGetQ h q.optRef)
  let (h3, negR) := allocQ h2 (hGetQ h q.negRef)
  let (h4, sortR) := allocS h3 (hGetS h q.sortRef)
  let (h5, filtR) := allocF h4 (hGetF h q.filtersRef)
  let (h6, aggR) := allocA h5 (hGetA h q.aggsRef)
  (h6,
   { q with sortRef := sortR, mustRef := mustR, optRef := optR,
            filtersRef := filtR, negRef := negR, aggsRef := aggR,
            resultSet := Option.none })

end Suspenders

namespace Suspenders

/-! ## Query compilation (`query_set.py` 288–369) -/

/-- Embedding of `_serialized_query` (query_set.py 320–369), as a function of the values
the method reads: the two query lists, the negative-boost list, the filter
dict and the instance default `minimum_should_match`.

* search context present: an inner `BoolQuery` of the must/should lists, with
  `must_not=[]` and `minimum_should_match` passed only when optional queries
  exist; with filter context too, it is wrapped in an outer `BoolQuery` whose
  `filter` is the filter-context bool (`acts_as_filter=True`);
* only filter context: a `ConstantScoreQuery` of the filter-context bool (the
  constructor only rejects a falsy filter, and it receives an object here);
* neither: `MatchAllQuery`;
* finally a non-empty negative-boost list wraps the result in
  `NegativeBoost(positive=result, negative=list)`. -/
def serializedQuery (must maybe neg : List Query) (fd : FD)
    (msmDefault : Int) : Except Err J := do
  let hasSearch := !must.isEmpty || !maybe.isEmpty
  let hasFilter := FD.has_values fd
  let res ←
    if hasSearch then do
      let inner ← boolQueryMk must maybe [] Option.none
        (if !maybe.isEmpty then some msmDefault else Option.none) false
      if hasFilter then do
        let fb ← boolQueryMk ((FD.positive_filters fd).map Query.filterQ) []
          ((FD.negative_filters fd).map Query.filterQ) Option.none Option.none true
        boolQueryMk [inner] [] [] (some fb) Option.none false
      else
        pure inner
    else
      if hasFilter then do
        let fb ← boolQueryMk ((FD.positive_filters fd).map Query.filterQ) []
          ((FD.negative_filters fd).map Query.filterQ) Option.none Option.none true
        pure (Query.constScore fb)
      else
        pure Query.matchAll
  let res := if neg.isEmpty then res
    else Query.boosting (some res) neg (J.numLit "0.5")
  qToDict res

/-- Embedding of `to_dict` (query_set.py 288–318) as a function of the values it reads:
the none-set sentinel, then the envelope with `sort` (score-then-id default),
`size`, `query`, `track_total_hits`, optional `min_score`, `from` when
non-zero, and `aggregations` (optionally wrapped under the `__sampler__`
pseudo-aggregation). -/
def toDictPure (isNone : Bool) (sortL : List (String × String))
    (pageSize : Int) (must maybe neg : List Query) (fd : FD)
    (msmDefault : Int) (trackTotalHits : Bool) (minScore : Option Int)
    (fromV : Int) (aggs : List Agg) (useSampler : Bool) : Except Err J :=
  if isNone then .ok (.obj [("is_none", .bool true)])
  else do
    let q ← serializedQuery must maybe neg fd msmDefault
    let sortJ := if sortL.isEmpty then J.arr [.str "_score", .str "id"]
      else J.arr (sortL.map fun p => J.obj [(p.1, .str p.2)])
    let res := [("sort", sortJ), ("size", J.int pageSize), ("query", q),
      ("track_total_hits", J.bool trackTotalHits)]
    let res := res ++
      (match minScore with | some s => [("min_score", J.int s)] | none => [])
    let res := res ++ (if fromV != 0 then [("from", J.int fromV)] else [])
    if aggs.isEmpty then pure (J.obj res)
    else do
      let aggsJ ← serializedAggregations aggs
      let entry := if useSampler then
          J.obj [("__sampler__", J.obj [("sampler",
            J.obj [("shard_size", J.int 10)]), ("aggs", aggsJ)])]
        else aggsJ
      pure (J.obj (res ++ [("aggregations", entry)]))

/-- Embedding of `_serialized_query` of a heap-resident query set. -/
def serializedQueryH (h : Heap) (q : QS) : Except Err J :=
  serializedQuery (hGetQ h q.mustRef) (hGetQ h q.optRef) (hGetQ h q.negRef)
    (hGetF h q.filtersRef) q.minimumShouldMatch

/-- Embedding of `to_dict` of a heap-resident query set. -/
def toDictH (h : Heap) (q : QS) : Except Err J :=
  toDictPure q.isNoneSet (hGetS h q.sortRef) q.pageSize (hGetQ h q.mustRef)
    (hGetQ h q.optRef) (hGetQ h q.negRef) (hGetF h q.filtersRef)
    q.minimumShouldMatch q.trackTotalHits q.minScore q.fromV
    (hGetA h q.aggsRef) q.aggregationsUseSampler

/-! ## Mutators (`query_set.py` 383–657) -/

/-- Embedding of `sorted_by` (query_set.py 413–447): `"_score"` sorts descending, other
`_`-prefixed orderings are rejected, a `-`/`+` prefix selects the direction,
and the default direction is ascending. -/
def sortedByList (orderings : List String) :
    Except Err (List (String × String)) :=
  orderings.foldlM
    (fun acc order =>
      if order == "_score" then .ok (acc ++ [("_score", "desc")])
      else if order.startsWith "_" then
        .error (.valueErr ("Invalid ordering " ++ order))
      else if order.startsWith "-" then .ok (acc ++ [(order.drop 1, "desc")])
      else if order.startsWith "+" then .ok (acc ++ [(order.drop 1, "asc")])
      else .ok (acc ++ [(order, "asc")]))
    []

/-- The loop bodies of `filter` / `exclude` (query_set.py 511–512, 519–520):
add each produced filter under its name through the given `FilterDict`
entry point, dropping the logged-warning flags. -/
def addFilters (adder : FD → String → Filter → Except Err (FD × Bool))
    (fd : FD) (fs : List Filter) : Except Err FD :=
  fs.foldlM (fun acc f => (adder acc (Filter.name f) f).map Prod.fst) fd

/-- The `@clone`-decorated mutating methods of `SuspendersQuerySet`, with the
arguments each reads.  `matchTextM` carries the key and normalized value list
that `parse_kwargs` (absent `filters.py`) would produce; `filterM`,
`excludeM` and `suppressM` carry already-constructed `Filter` objects, the
`*args` entry path of `_make_filter_list`. -/
inductive Mutator where
  | minScoreM (score : Int)
  | matchTextM (key : String) (values : List String)
  | addOptionalQueryM (q : Query)
  | sortedByM (orderings : List String)
  | aggregationM (term : String) (size : Int) (minDocCount : Option Int)
      (order : J) (excludeArg : J) (includeArg : J)
      (withTopHits : Option TopHits) (regex : J) (script : J)
  | filterM (fs : List Filter)
  | excludeM (fs : List Filter)
  | suppressM (fs : List Filter)
  | noneM
  | noPagesM
  | enableHitCounterM
  | disableHitCounterM
  | paginateM (page pageSize : Int)
  | sliceM (start stop : Int)
  | allM

/-- One `@clone`-decorated method call (query_set.py 29–35 and 383–657):
`self = self.copy()` first, then the method body runs against the copy.  A
body that raises returns the heap as of the copy (the partially mutated copy
is discarded either way) together with the exception.

* `minScoreM`, `noneM`, `noPagesM`, `enableHitCounterM`, `disableHitCounterM`,
  `paginateM`, `sliceM`, `allM` rebind scalar attributes of the copy;
* `matchTextM` appends a `MatchQuery` per value (default options) to the
  copied must list; `addOptionalQueryM` appends to the copied should list;
  `suppressM` appends the filters to the copied negative-boost list;
* `sortedByM` rebinds `_sort` to a freshly built list;
* `aggregationM` appends a terms aggregation built as at query_set.py
  470–488 (`name=term`, `exclude or []` normalization from the
  `TermsFilter` constructor, `regex_flags` default `"DOTALL"`);
* `filterM` / `excludeM` run the `FilterDict` entry points against the
  copied filter dict. -/
def applyMutator (debug : Bool) (h : Heap) (q : QS) (m : Mutator) :
    Heap × Except Err QS :=
  let (h1, q1) := copyQS h q
  match m with
  | .minScoreM s => (h1, .ok { q1 with minScore := some s })
  | .matchTextM key values =>
    let qs := values.map (fun v => Query.matchQ key v 50)
    (setQ h1 q1.mustRef (hGetQ h1 q1.mustRef ++ qs), .ok q1)
  | .addOptionalQueryM qq =>
    (setQ h1 q1.optRef (hGetQ h1 q1.optRef ++ [qq]), .ok q1)
  | .sortedByM orderings =>
    (match sortedByList orderings with
     | .error e => (h1, .error e)
     | .ok result =>
       let (h2, r) := allocS h1 result
       (h2, .ok { q1 with sortRef := r }))
  | .aggregationM term size minDoc order excludeArg includeArg wth regex script =>
    let facet : Agg :=
      { name := term, fieldName := term, size := size, order := order,
        includeJ := includeArg,
        excludeJ := if J.truthy excludeArg then excludeArg else J.arr [],
        regex := regex, regexFlags := J.str "DOTALL", script := script,
        minDocCount := minDoc, withTopHits := wth }
    (setA h1 q1.aggsRef (hGetA h1 q1.aggsRef ++ [facet]), .ok q1)
  | .filterM fs =>
    (match addFilters (FD.add_positive debug) (hGetF h1 q1.filtersRef) fs with
     | .error e => (h1, .error e)
     | .ok fd2 => (setF h1 q1.filtersRef fd2, .ok q1))
  | .excludeM fs =>
    (match addFilters (FD.add_negative debug) (hGetF h1 q1.filtersRef) fs with
     | .error e => (h1, .error e)
     | .ok fd2 => (setF h1 q1.filtersRef fd2, .ok q1))
  | .suppressM fs =>
    (setQ h1 q1.negRef (hGetQ h1 q1.negRef ++ fs.map Query.filterQ), .ok q1)
  | .noneM => (h1, .ok { q1 with isNoneSet := true })
  | .noPagesM =>
    (h1, .ok { q1 with fromV := 0, pageSize := 0, trackTotalHits := false })
  | .enableHitCounterM => (h1, .ok { q1 with trackTotalHits := true })
  | .disableHitCounterM => (h1, .ok { q1 with trackTotalHits := false })
  | .paginateM page psize =>
    if page ≤ 0 then (h1, .error (.valueErr "Page must be > 0"))
    else if psize ≤ 0 then
      (h1, .error (.valueErr "Page_size must an integer > 0"))
    else (h1, .ok { q1 with fromV := (page - 1) * psize, pageSize := psize })
  | .sliceM start stop =>
    let psize := stop - start
    if 0 > start then
      (h1, .error (.valueErr "Start must be an integer greater than 0"))
    else if start > stop then
      (h1, .error (.valueErr "End must be an integer greater than start"))
    else if 1 > psize then
      (h1, .error (.valueErr "Derived page size must be at least 1"))
    else (h1, .ok { q1 with fromV := start, pageSize := psize })
  | .allM => (h1, .ok q1)

/-! ## Execution and caching (`query_set.py` 187–244) -/

/-- The document-store interface (the external Elasticsearch collaborator):
responses as a function of the request body. -/
structure Conn where
  searchResp : J → J
  countResp : J → Int

/-- The I/O performed so far: the bodies of the search and count calls made
through the document-store interface. -/
structure CallLog where
  searchCalls : List J
  countCalls : List J
deriving DecidableEq, Repr

/-- Embedding of `SuspendersQuerySet.execute` (query_set.py 221–244): return the cache if
present; a none-set returns the sentinel empty `ResultSet` without I/O (and
without caching); otherwise compile, perform one search call, decode it and
cache the result on the instance.  (`_execute_callback` is the identity in
`SuspendersQuerySet` itself.) -/
def execute (conn : Conn) (log : CallLog) (h : Heap) (q : QS) :
    CallLog × QS × Except Err RS :=
  match q.resultSet with
  | some rs => (log, q, .ok rs)
  | none =>
    if q.isNoneSet then (log, q, emptyResultSet)
    else
      match toDictH h q with
      | .error e => (log, q, .error e)
      | .ok body =>
        let raw := conn.searchResp body
        let log1 := { log with searchCalls := log.searchCalls ++ [body] }
        match mkResultSet raw with
        | .error e => (log1, q, .error e)
        | .ok rs => (log1, { q with resultSet := some rs }, .ok rs)

/-- Embedding of `SuspendersQuerySet.count` (query_set.py 187–212): an instance that has
already executed returns the cached total; a none-set returns `0`; otherwise
a reduced body (`query` plus `from` when present) goes through one count
call.  The result is *not* cached — `_result_set` is never written here —
so the instance is returned unchanged.  (Returned ints are `J.int`-wrapped
so that the cached path, whose stored total may be `None`, has the same
type.) -/
def count (conn : Conn) (log : CallLog) (h : Heap) (q : QS) :
    CallLog × QS × Except Err (Option J) :=
  match q.resultSet with
  | some rs => (log, q, .ok rs.total)
  | none =>
    if q.isNoneSet then (log, q, .ok (some (J.int 0)))
    else
      match toDictH h q with
      | .error e => (log, q, .error e)
      | .ok body =>
        let countBody := J.obj ([("query", J.lookupD body "query" J.null)] ++
          (match J.lookup body "from" with
           | some v => [("from", v)]
           | none => []))
        ({ log with countCalls := log.countCalls ++ [countBody] }, q,
         .ok (some (J.int (conn.countResp countBody))))

end Suspenders

namespace Suspenders

/-! ## Transport-error classification (`utils.py` 52–100) -/

/-- The observable outcome of `raise_on_transport_error`: which exception
escapes, or `noRaise` when the function returns without raising. -/
inductive Raised where
  | unknownError
  | valueError
  | typeError
  | pyKeyError (key : String)
  | indexMissing
  | documentMissing
  | tooComplex
  | searchError
  | noRaise
deriving DecidableEq, Repr

/-- Embedding of `__match_error` (utils.py 78–100): subscript the entry for `"type"`
(`TypeError` on a non-dict entry, `KeyError` on a dict without the key),
then raise the mapped exception class — every branch raises, the unmapped
types through the generic `SearchError`. -/
def matchError (entry : J) : Raised :=
  match entry with
  | .obj _ =>
    match J.lookup entry "type" with
    | Option.none => .pyKeyError "type"
    | some t =>
      if t = .str "index_not_found_exception" then .indexMissing
      else if t = .str "document_missing_exception" then .documentMissing
      else if t = .str "too_complex_to_determinize_exception" then .tooComplex
      else .searchError
  | _ => .typeError

/-- Embedding of `raise_on_transport_error` (utils.py 52–76) on the transport error's
`info` payload.

* a non-dict payload, or one without an `"error"` key, raises `UnknownError`;
* the `try` block subscripts `raw_error["root_cause"]` and iterates it,
  classifying the *first* entry through `__match_error`; a `TypeError`
  anywhere inside (non-dict `raw_error`, non-iterable `root_cause`, non-dict
  entry) is caught and re-raised as `ValueError(raw_error)`;
* a `KeyError` (dict `raw_error` without `"root_cause"`, entry without
  `"type"`) is *not* caught and escapes as-is;
* an empty `root_cause` list (or empty string, whose iteration yields
  nothing) runs the loop zero times and the function returns normally —
  nothing is raised. -/
def raiseOnTransportError (info : J) : Raised :=
  match info with
  | .obj _ =>
    match J.lookup info "error" with
    | Option.none => .unknownError
    | some rawError =>
      match rawError with
      | .obj _ =>
        match J.lookup rawError "root_cause" with
        | Option.none => .pyKeyError "root_cause"
        | some rc =>
          match rc with
          | .arr entries =>
            match entries with
            | [] => .noRaise
            | e :: _ =>
              match matchError e with
              | .typeError => .valueError
              | r => r
          | .str s => if s.isEmpty then .noRaise else .valueError
          | _ => .valueError
      | _ => .valueError
  | _ => .unknownError

/-! ## Model reconstruction (`app/models.py` 56–105) -/

/-- A flat document: the attribute bag handed to `type_from_fields`. -/
abbrev Doc := List (String × J)

/-- Key lookup in a flat document. -/
def docLookup (d : Doc) (k : String) : Option J :=
  (d.find? (fun p => p.1 == k)).map Prod.snd

/-- The schema state `SuspendersModel` derives from its field declarations:
`complex_field_names`, `datetime_fields`, `nullable_fields` (app/models.py
33–47). -/
structure Schema where
  complexFields : List String
  datetimeFields : List String
  nullableFields : List String

/-- Python `int(x)` as used on the identifier: ints pass through, bools are
ints, numeric strings parse (`ValueError` otherwise), anything else is a
`TypeError`. -/
def pyInt : J → Except Err Int
  | .int n => .ok n
  | .bool b => .ok (if b then 1 else 0)
  | .str s =>
    match s.toInt? with
    | some n => .ok n
    | none => .error (.valueErr "invalid literal for int()")
  | .numLit s =>
    match s.toInt? with
    | some n => .ok n
    | none => .error (.valueErr "invalid literal for int()")
  | _ => .error (.typeErr "int() argument")

/-- Embedding of `convert_str_to_datetime` (app/utils.py 14–24): only strings are
converted; the pendulum parse plus UTC normalization is abstracted as a
tagging constructor (no claim depends on date arithmetic), and non-strings
pass through unchanged. -/
def convert_str_to_datetime : J → J
  | .str s => .obj [("__datetime__", .str s)]
  | other => other

/-- Embedding of `SuspendersModel.process_load_fields` (app/models.py 56–71).  The first
statement is `load_fields["id"] = int(load_fields["id"])`: a document with
no `id` raises `KeyError("id")` here, before anything else runs.  Then every
declared datetime field is rewritten (inserting the converted
`load_fields.get(key, None)`, so absent datetime fields become `None`), and
absent nullable fields are filled with `None`. -/
def process_load_fields (sch : Schema) (load_fields : Doc) : Except Err Doc := do
  let idv ← match docLookup load_fields "id" with
    | some v => pure v
    | none => Except.error (Err.keyErr "id")
  let idn ← pyInt idv
  let lf := assocSet load_fields "id" (J.int idn)
  let lf := sch.datetimeFields.foldl
    (fun lf k =>
      assocSet lf k (convert_str_to_datetime ((docLookup lf k).getD J.null)))
    lf
  let lf := sch.nullableFields.foldl
    (fun lf k => if (docLookup lf k).isSome then lf else lf ++ [(k, J.null)])
    lf
  pure lf

/-- Embedding of `SuspendersModel.type_from_fields` (app/models.py 92–105), up to the
structured identifier check: split off the complex fields, run the default
load-field processor, and raise the structured
`TypeError("id not present in load_fields...")` only if the *processed*
load fields lack an `id`.  The remainder of the method (Django model
instantiation and complex-field reification) is the excluded ORM seam; the
verified prefix returns the processed load fields. -/
def type_from_fields (sch : Schema) (base : Doc) : Except Err Doc := do
  let load_fields := base.filter (fun p => !(sch.complexFields.contains p.1))
  let lf ← process_load_fields sch load_fields
  if (docLookup lf "id").isSome then
    pure lf
  else
    Except.error (Err.typeErr "id not present in load_fields")

end Suspenders

namespace Suspenders

/-- Decidable equality of embedded computations (absent from this toolchain's
core for `Except`). -/
instance {ε α : Type} [DecidableEq ε] [DecidableEq α] :
    DecidableEq (Except ε α) := fun a b =>
  match a, b with
  | .ok x, .ok y =>
    if h : x = y then isTrue (by rw [h])
    else isFalse (by intro e; cases e; exact h rfl)
  | .error x, .error y =>
    if h : x = y then isTrue (by rw [h])
    else isFalse (by intro e; cases e; exact h rfl)
  | .ok _, .error _ => isFalse nofun
  | .error _, .ok _ => isFalse nofun

/-- Whether an embedded value is a Python dict (`isinstance(x, dict)`). -/
def J.isObj : J → Bool
  | .obj _ => true
  | _ => false

/-- Every stored polarity is `"+"` or `"-"` — true of every `FilterDict` the
query set builds, since only `add_positive` and `add_negative` write. -/
def FD.wellFormedPolarity (fd : FD) : Bool :=
  fd.all (fun p => p.2.1 == "+" || p.2.1 == "-")

/-- Expected shape from the spec: the serialized filter-context bool, whose
`must` holds the positive filters and whose `must_not` holds the negative
filters. -/
def specFilterBoolJ (fd : FD) : J :=
  J.obj [("bool", J.obj (
    (if (FD.positive_filters fd).isEmpty then []
     else [("must", J.arr ((FD.positive_filters fd).map Filter.to_dict))])
    ++ (if (FD.negative_filters fd).isEmpty then []
        else [("must_not", J.arr ((FD.negative_filters fd).map Filter.to_dict))])))]

/-- Expected shape from the spec: `{"match_all": {}}`. -/
def specMatchAllJ : J := J.obj [("match_all", J.obj [])]

/-- Expected shape from the spec: the `constant_score` query wrapping the
filter-context bool. -/
def specConstScoreJ (fd : FD) : J :=
  J.obj [("constant_score", J.obj [("filter", specFilterBoolJ fd)])]

/-- Expected shape from the spec: the serialized inner search bool —
must/should clauses with `minimum_should_match` only when a should clause
exists (`mj`/`sj` are the serialized must/should lists). -/
def specInnerBoolJ (must maybe : List Query) (mj sj : List J) (msm : Int) : J :=
  J.obj [("bool", J.obj (
    (if !maybe.isEmpty && msm != 0 then [("minimum_should_match", J.int msm)] else [])
    ++ (if must.isEmpty then [] else [("must", J.arr mj)])
    ++ (if maybe.isEmpty then [] else [("should", J.arr sj)])))]

/-- Expected shape from the spec: the outer bool whose `must` list holds the
inner search bool and whose `filter` key holds the filter-context bool. -/
def specOuterBoolJ (innerJ fbJ : J) : J :=
  J.obj [("bool", J.obj [("must", J.arr [innerJ]), ("filter", fbJ)])]

/-- Well-formedness of a heap-resident query set: its container references
are live. -/
abbrev WF (h : Heap) (q : QS) : Prop :=
  q.mustRef < h.queryStore.length ∧ q.optRef < h.queryStore.length ∧
  q.negRef < h.queryStore.length ∧ q.sortRef < h.sortStore.length ∧
  q.filtersRef < h.filterStore.length ∧ q.aggsRef < h.aggStore.length

/-- Heap evolution that preserves every container a well-formed query set can
reference: stores only grow, and the original cells read unchanged. -/
structure Preserves (h h2 : Heap) : Prop where
  lenQ : h.queryStore.length ≤ h2.queryStore.length
  lenS : h.sortStore.length ≤ h2.sortStore.length
  lenF : h.filterStore.length ≤ h2.filterStore.length
  lenA : h.aggStore.length ≤ h2.aggStore.length
  readQ : ∀ r, r < h.queryStore.length → hGetQ h2 r = hGetQ h r
  readS : ∀ r, r < h.sortStore.length → hGetS h2 r = hGetS h r
  readF : ∀ r, r < h.filterStore.length → hGetF h2 r = hGetF h r
  readA : ∀ r, r < h.aggStore.length → hGetA h2 r = hGetA h r

end Suspenders

namespace Suspenders

/-! ## Reduction helpers for `Except` computations -/

/-- Bind reduction for `Except.ok`. -/
@[simp] theorem exbind_ok {α β : Type} (x : α) (f : α → Except Err β) :
    (Except.ok x >>= f) = f x := rfl

/-- Bind reduction for `Except.error`. -/
@[simp] theorem exbind_err {α β : Type} (e : Err) (f : α → Except Err β) :
    ((Except.error e : Except Err α) >>= f) = .error e := rfl

/-- Reduction of `pure` on `Except` to `Except.ok`. -/
@[simp] theorem expure {α : Type} (x : α) :
    (pure x : Except Err α) = .ok x := rfl

/-- C7: the `ResultSet` constructor decodes the total in three mutually
exclusive ways — an integer total `n` yields `(total = n, relation = "eq")`,
an object total yields its `value` and `relation` entries, and an absent
total (hit tracking disabled) yields a `None` total (and leaves the relation
attribute unset). -/
theorem C7_total_decoding :
    (∀ n : Int, decodeTotal (some (J.int n)) =
      .ok (some (J.int n), some (J.str "eq"))) ∧
    (∀ (n : Int) (r : String),
      decodeTotal (some (J.obj [("value", J.int n), ("relation", J.str r)])) =
        .ok (some (J.int n), some (J.str r))) ∧
    decodeTotal Option.none = .ok (Option.none, Option.none) := by
  refine ⟨fun n => rfl, fun n r => ?_, rfl⟩
  simp [decodeTotal, getKey, J.lookup, List.find?]

/-- C10: for every `ResultSet` decoded from a raw response, the boolean
coercion is `True` exactly when the set holds zero hit documents — the
inverse of the usual container convention — while `len` is the number of raw
hit documents of the response's `hits.hits` array. -/
theorem C10_bool_inverted (resp : J) (rs : RS)
    (hmk : mkResultSet resp = .ok rs) :
    (RS.boolVal rs = true ↔ RS.len rs = 0) ∧
    (∃ hitsSection, getKey resp "hits" = .ok hitsSection ∧
      getKey hitsSection "hits" = .ok (J.arr rs.rawDocs)) ∧
    RS.len rs = rs.rawDocs.length := by
  refine ⟨by simp [RS.boolVal, RS.len], ?_, rfl⟩
  unfold mkResultSet at hmk
  cases e1 : getKey resp "hits" with
  | error e =>
    simp only [e1, exbind_err] at hmk
    exact Except.noConfusion hmk
  | ok hitsSection =>
    simp only [e1, exbind_ok] at hmk
    refine ⟨hitsSection, rfl, ?_⟩
    cases e2 : getKey hitsSection "hits" with
    | error e =>
      simp only [e2, exbind_err] at hmk
      exact Except.noConfusion hmk
    | ok docsJ =>
      simp only [e2, exbind_ok] at hmk
      cases docsJ with
      | arr l =>
        simp only [expure, exbind_ok, exbind_err] at hmk
        cases e3 : getKey resp "_shards" with
        | error e =>
          simp only [e3, exbind_err] at hmk
          exact Except.noConfusion hmk
        | ok shards =>
          simp only [e3, exbind_ok] at hmk
          cases e4 : decodeTotal (J.lookup hitsSection "total") with
          | error e =>
          simp only [e4, exbind_err] at hmk
          exact Except.noConfusion hmk
          | ok pr =>
            simp only [e4, exbind_ok] at hmk
            cases e5 : getKey hitsSection "max_score" with
            | error e =>
          simp only [e5, exbind_err] at hmk
          exact Except.noConfusion hmk
            | ok ms =>
              simp only [e5, exbind_ok] at hmk
              cases e6 : extractAggs (J.lookup resp "aggregations") with
              | error e =>
          simp only [e6, exbind_err] at hmk
          exact Except.noConfusion hmk
              | ok aggs =>
                simp only [e6, exbind_ok, expure, Except.ok.injEq] at hmk
                cases hmk
                rfl
      | null =>
        simp only [exbind_err] at hmk
        exact Except.noConfusion hmk
      | bool b =>
        simp only [exbind_err] at hmk
        exact Except.noConfusion hmk
      | int n =>
        simp only [exbind_err] at hmk
        exact Except.noConfusion hmk
      | numLit s =>
        simp only [exbind_err] at hmk
        exact Except.noConfusion hmk
      | str s =>
        simp only [exbind_err] at hmk
        exact Except.noConfusion hmk
      | obj fields =>
        simp only [exbind_err] at hmk
        exact Except.noConfusion hmk

end Suspenders

namespace Suspenders

/-- Witness for `C10_bool_inverted` at the sentinel empty response. -/
theorem C10_bool_inverted_witness :
    (RS.boolVal ⟨[], J.int 0, some (J.int 0), some (J.str "eq"), J.int 0, []⟩ = true ↔
      RS.len ⟨[], J.int 0, some (J.int 0), some (J.str "eq"), J.int 0, []⟩ = 0) ∧
    (∃ hitsSection, getKey emptySentinelResponse "hits" = .ok hitsSection ∧
      getKey hitsSection "hits" =
        .ok (J.arr (RS.rawDocs ⟨[], J.int 0, some (J.int 0), some (J.str "eq"), J.int 0, []⟩))) ∧
    RS.len ⟨[], J.int 0, some (J.int 0), some (J.str "eq"), J.int 0, []⟩ =
      (RS.rawDocs ⟨[], J.int 0, some (J.int 0), some (J.str "eq"), J.int 0, []⟩).length :=
  C10_bool_inverted emptySentinelResponse
    ⟨[], J.int 0, some (J.int 0), some (J.str "eq"), J.int 0, []⟩ (by rfl)

end Suspenders

namespace Suspenders

/-- C4: `BoolQuery` construction fails at construction time in exactly
three cases: (a) no must/should/must-not clause at all; (b) must-not alone,
without must, should or `acts_as_filter=True`; (c) `minimum_should_match`
set (a truthy value, as the source tests Python truthiness) without any
should clause.  Otherwise construction succeeds. -/
theorem C4_bool_validation (must maybe mustNot : List Query)
    (filt : Option Query) (msm : Option Int) (actsAsFilter : Bool) :
    (∃ e, boolQueryMk must maybe mustNot filt msm actsAsFilter = .error e) ↔
      ((msmTruthy msm = true ∧ maybe = []) ∨
       (mustNot ≠ [] ∧ must = [] ∧ maybe = [] ∧ actsAsFilter = false) ∨
       (must = [] ∧ maybe = [] ∧ mustNot = [])) := by
  unfold boolQueryMk
  split_ifs with h1 h2 h3
  · simp only [List.isEmpty_iff] at h1
    simp [h1]
  · simp only [List.isEmpty_iff, Bool.not_eq_true] at h2
    simp [h2]
  · simp only [List.isEmpty_iff] at h3
    simp [h3]
  · constructor
    · rintro ⟨e, he⟩
      exact he.elim
    · intro hr
      exfalso
      rcases hr with ⟨ha, hb⟩ | ⟨ha, hb, hc, hd⟩ | ⟨ha, hb, hc⟩
      · exact h1 ⟨ha, by simp [hb]⟩
      · exact h2 ⟨by simp [List.isEmpty_iff, ha], by simp [hb], by simp [hc],
          by simp [hd]⟩
      · exact h3 ⟨by simp [ha], by simp [hb], by simp [hc]⟩

end Suspenders

namespace Suspenders

/-- C6: on a query set whose "matches nothing" flag is set (and which has
not been executed — `copy` always clears the cache, so every `none()` result
starts uncached), `execute` returns the sentinel empty `ResultSet` (zero
documents, zero total) and `count` returns `0`, both without touching the
document-store interface (the call log is unchanged); `to_dict`
short-circuits to the `is_none` sentinel marker. -/
theorem C6_none_set (conn : Conn) (log : CallLog) (h : Heap) (q : QS)
    (hn : q.isNoneSet = true) (hc : q.resultSet = Option.none) :
    execute conn log h q = (log, q, emptyResultSet) ∧
    emptyResultSet =
      .ok ⟨[], J.int 0, some (J.int 0), some (J.str "eq"), J.int 0, []⟩ ∧
    count conn log h q = (log, q, .ok (some (J.int 0))) ∧
    toDictH h q = .ok (J.obj [("is_none", J.bool true)]) := by
  refine ⟨?_, rfl, ?_, ?_⟩
  · simp [execute, hc, hn]
  · simp [count, hc, hn]
  · simp [toDictH, toDictPure, hn]

/-- Witness for `C6_none_set`: a freshly built query set with the flag set. -/
theorem C6_none_set_witness :
    (execute ⟨fun _ => J.null, fun _ => 0⟩ ⟨[], []⟩ emptyHeap
        { (initQS emptyHeap).2 with isNoneSet := true } =
      (⟨[], []⟩, { (initQS emptyHeap).2 with isNoneSet := true },
       emptyResultSet)) ∧
    emptyResultSet =
      .ok ⟨[], J.int 0, some (J.int 0), some (J.str "eq"), J.int 0, []⟩ ∧
    (count ⟨fun _ => J.null, fun _ => 0⟩ ⟨[], []⟩ emptyHeap
        { (initQS emptyHeap).2 with isNoneSet := true } =
      (⟨[], []⟩, { (initQS emptyHeap).2 with isNoneSet := true },
       .ok (some (J.int 0)))) ∧
    toDictH emptyHeap { (initQS emptyHeap).2 with isNoneSet := true } =
      .ok (J.obj [("is_none", J.bool true)]) :=
  C6_none_set ⟨fun _ => J.null, fun _ => 0⟩ ⟨[], []⟩ emptyHeap
    { (initQS emptyHeap).2 with isNoneSet := true } rfl rfl

end Suspenders

namespace Suspenders

/-- C3 counterexample: `count()` does not cache.  On a fresh query set,
two `count()` calls on the *same* instance perform two count calls through
the document store (the claim's "exactly one underlying search/count call in
total per instance" fails), and the first call hands the instance back
unchanged — nothing was cached. -/
theorem C3_count_twice_two_calls :
    (count (⟨fun _ => emptySentinelResponse, fun _ => 0⟩ : Conn)
      (count (⟨fun _ => emptySentinelResponse, fun _ => 0⟩ : Conn) ⟨[], []⟩
        (initQS emptyHeap).1 (initQS emptyHeap).2).1
      (initQS emptyHeap).1
      (count (⟨fun _ => emptySentinelResponse, fun _ => 0⟩ : Conn) ⟨[], []⟩
        (initQS emptyHeap).1 (initQS emptyHeap).2).2.1).1.countCalls.length = 2 ∧
    (count (⟨fun _ => emptySentinelResponse, fun _ => 0⟩ : Conn) ⟨[], []⟩
      (initQS emptyHeap).1 (initQS emptyHeap).2).2.1 = (initQS emptyHeap).2 :=
  ⟨rfl, rfl⟩

/-- C3 amended: `execute()` is idempotent per instance — the first call
performs exactly one search call and caches the `ResultSet`, and any further
`execute()` or `count()` on the returned instance answers from the cache
with no I/O.  `count()` itself, however, never caches: on an instance that
has not executed it performs one count call and returns the instance
unchanged (so the next `count()` performs I/O again). -/
theorem C3_execute_caches_count_does_not (conn : Conn) (log : CallLog)
    (h : Heap) (q : QS) (body : J) (rs : RS)
    (hc : q.resultSet = Option.none) (hn : q.isNoneSet = false)
    (hb : toDictH h q = .ok body)
    (hr : mkResultSet (conn.searchResp body) = .ok rs) :
    execute conn log h q =
      ({ log with searchCalls := log.searchCalls ++ [body] },
       { q with resultSet := some rs }, .ok rs) ∧
    (∀ (log2 : CallLog) (h2 : Heap),
      execute conn log2 h2 { q with resultSet := some rs } =
        (log2, { q with resultSet := some rs }, .ok rs)) ∧
    (∀ (log2 : CallLog) (h2 : Heap),
      count conn log2 h2 { q with resultSet := some rs } =
        (log2, { q with resultSet := some rs }, .ok rs.total)) ∧
    (count conn log h q).2.1 = q ∧
    (count conn log h q).1.countCalls.length = log.countCalls.length + 1 := by
  refine ⟨?_, fun log2 h2 => ?_, fun log2 h2 => ?_, ?_, ?_⟩
  · simp [execute, hc, hn, hb, hr]
  · simp [execute]
  · simp [count]
  · simp [count, hc, hn, hb]
  · simp [count, hc, hn, hb]

end Suspenders

namespace Suspenders

/-- Witness for `C3_execute_caches_count_does_not`: a fresh query set against
a store answering the sentinel empty response. -/
theorem C3_execute_caches_count_does_not_witness :
    execute (⟨fun _ => emptySentinelResponse, fun _ => 0⟩ : Conn) ⟨[], []⟩
        (initQS emptyHeap).1 (initQS emptyHeap).2 =
      ({ searchCalls := [J.obj [("sort", J.arr [J.str "_score", J.str "id"]),
          ("size", J.int 10), ("query", J.obj [("match_all", J.obj [])]),
          ("track_total_hits", J.bool false)]], countCalls := [] },
       { (initQS emptyHeap).2 with
         resultSet := some (RS.mk [] (J.int 0) (some (J.int 0))
           (some (J.str "eq")) (J.int 0) []) },
       .ok (RS.mk [] (J.int 0) (some (J.int 0)) (some (J.str "eq")) (J.int 0) [])) :=
  (C3_execute_caches_count_does_not ⟨fun _ => emptySentinelResponse, fun _ => 0⟩
    ⟨[], []⟩ (initQS emptyHeap).1 (initQS emptyHeap).2
    (J.obj [("sort", J.arr [J.str "_score", J.str "id"]), ("size", J.int 10),
      ("query", J.obj [("match_all", J.obj [])]),
      ("track_total_hits", J.bool false)])
    (RS.mk [] (J.int 0) (some (J.int 0)) (some (J.str "eq")) (J.int 0) [])
    rfl rfl rfl rfl).1

end Suspenders

namespace Suspenders

/-- C8 counterexample: engine-error classification is not total and not
determined as the claim states.  A payload whose `root_cause` list is empty
raises nothing at all (the classification loop runs zero times), and a
malformed payload whose `"error"` value is a plain string raises
`ValueError`, not `UnknownError`. -/
theorem C8_classification_gaps :
    raiseOnTransportError
        (J.obj [("error", J.obj [("root_cause", J.arr [])])]) = .noRaise ∧
    Raised.noRaise ≠ Raised.unknownError ∧
    raiseOnTransportError (J.obj [("error", J.str "boom")]) = .valueError ∧
    Raised.valueError ≠ Raised.unknownError := by
  refine ⟨rfl, by decide, rfl, by decide⟩

/-- C8 amended: classification of a transport error's `info` payload.

* a non-dict payload, or a dict without an `"error"` key, raises
  `UnknownError`;
* a payload whose `"error"` value is itself not a dict raises `ValueError`
  (the `TypeError` from subscripting it is caught and re-raised);
* a dict `"error"` without `"root_cause"` lets the `KeyError` escape;
* a `root_cause` list whose first entry is a dict with a `"type"` maps
  `index_not_found_exception` to `IndexMissingException`,
  `document_missing_exception` to `DocumentMissingException`,
  `too_complex_to_determinize_exception` to `TooComplexToDetermine`, and any
  other type value to the generic `SearchError`; a non-dict first entry gives
  `ValueError`; a dict first entry without `"type"` lets the `KeyError`
  escape;
* an empty `root_cause` list raises nothing — classification is not total. -/
theorem C8_classification (info rawError entry t : J)
    (fields rcFields : List (String × J)) :
    (J.isObj info = false → raiseOnTransportError info = .unknownError) ∧
    (J.lookup (J.obj fields) "error" = Option.none →
      raiseOnTransportError (J.obj fields) = .unknownError) ∧
    (J.lookup (J.obj fields) "error" = some rawError →
      J.isObj rawError = false →
      raiseOnTransportError (J.obj fields) = .valueError) ∧
    (J.lookup (J.obj fields) "error" = some (J.obj rcFields) →
      J.lookup (J.obj rcFields) "root_cause" = Option.none →
      raiseOnTransportError (J.obj fields) = .pyKeyError "root_cause") ∧
    (J.lookup (J.obj fields) "error" = some (J.obj rcFields) →
      J.lookup (J.obj rcFields) "root_cause" = some (J.arr []) →
      raiseOnTransportError (J.obj fields) = .noRaise) ∧
    (∀ rest : List J,
      J.lookup (J.obj fields) "error" = some (J.obj rcFields) →
      J.lookup (J.obj rcFields) "root_cause" = some (J.arr (entry :: rest)) →
      raiseOnTransportError (J.obj fields) =
        (match matchError entry with
         | .typeError => .valueError
         | r => r)) ∧
    (∀ eFields : List (String × J),
      J.lookup (J.obj eFields) "type" = some t →
      matchError (J.obj eFields) =
        (if t = .str "index_not_found_exception" then .indexMissing
         else if t = .str "document_missing_exception" then .documentMissing
         else if t = .str "too_complex_to_determinize_exception" then .tooComplex
         else .searchError)) ∧
    (J.isObj entry = false → matchError entry = .typeError) := by
  refine ⟨?_, ?_, ?_, ?_, ?_, ?_, ?_, ?_⟩
  · intro hno
    cases info <;> simp_all [raiseOnTransportError, J.isObj]
  · intro he
    simp [raiseOnTransportError, he]
  · intro he hno
    cases rawError <;> simp_all [raiseOnTransportError, J.isObj]
  · intro he hrc
    simp [raiseOnTransportError, he, hrc]
  · intro he hrc
    simp [raiseOnTransportError, he, hrc]
  · intro rest he hrc
    simp [raiseOnTransportError, he, hrc]
  · intro eFields ht
    simp [matchError, ht]
  · intro hno
    cases entry <;> simp_all [matchError, J.isObj]

end Suspenders

namespace Suspenders

/-- Witness for `C8_classification`: a root cause of type
`index_not_found_exception` classifies to `IndexMissingException`. -/
theorem C8_classification_witness :
    raiseOnTransportError (J.obj [("error", J.obj [("root_cause",
        J.arr [J.obj [("type", J.str "index_not_found_exception")]])])]) =
      (match matchError (J.obj [("type", J.str "index_not_found_exception")]) with
       | .typeError => .valueError
       | r => r) ∧
    matchError (J.obj [("type", J.str "index_not_found_exception")]) =
      .indexMissing :=
  ⟨(C8_classification J.null J.null
      (J.obj [("type", J.str "index_not_found_exception")])
      (J.str "index_not_found_exception")
      [("error", J.obj [("root_cause",
        J.arr [J.obj [("type", J.str "index_not_found_exception")]])])]
      [("root_cause",
        J.arr [J.obj [("type", J.str "index_not_found_exception")]])]).2.2.2.2.2.1
      [] rfl rfl,
   (C8_classification J.null J.null
      (J.obj [("type", J.str "index_not_found_exception")])
      (J.str "index_not_found_exception")
      [("error", J.obj [("root_cause",
        J.arr [J.obj [("type", J.str "index_not_found_exception")]])])]
      [("root_cause",
        J.arr [J.obj [("type", J.str "index_not_found_exception")]])]).2.2.2.2.2.2.1
      [("type", J.str "index_not_found_exception")] rfl⟩

end Suspenders

namespace Suspenders

/-- In the replace branch of `assocSet`, the key maps to the new value. -/
theorem docLookup_map_set_self (k : String) (v : J) :
    ∀ (d : Doc), d.any (fun p => p.1 == k) = true →
      docLookup (d.map (fun p => if p.1 == k then (k, v) else p)) k = some v
  | [], ha => by simp at ha
  | hd :: tl, ha => by
    by_cases h1 : hd.1 = k
    · have e1 : (hd.1 == k) = true := by simp [h1]
      simp [docLookup, List.find?, e1]
    · have e1 : (hd.1 == k) = false := by simp [h1]
      have ha2 : tl.any (fun p => p.1 == k) = true := by
        simpa [List.any_cons, e1] using ha
      have ih := docLookup_map_set_self k v tl ha2
      simpa [docLookup, List.find?, e1] using ih

/-- The replace branch of `assocSet` leaves other keys unchanged. -/
theorem docLookup_map_set_ne (k k2 : String) (v : J) (hne : k2 ≠ k) :
    ∀ (d : Doc),
      docLookup (d.map (fun p => if p.1 == k then (k, v) else p)) k2 =
        docLookup d k2
  | [] => rfl
  | hd :: tl => by
    have ih := docLookup_map_set_ne k k2 v hne tl
    by_cases h1 : hd.1 = k
    · have e1 : (hd.1 == k) = true := by simp [h1]
      have e2 : (k == k2) = false := by
        simp only [beq_eq_false_iff_ne, ne_eq]
        exact fun e => hne e.symm
      have e3 : (hd.1 == k2) = false := by
        simp only [h1, beq_eq_false_iff_ne, ne_eq]
        exact fun e => hne e.symm
      simpa [docLookup, List.find?, e1, e2, e3] using ih
    · have e1 : (hd.1 == k) = false := by simp [h1]
      by_cases h2 : hd.1 = k2
      · have e2 : (hd.1 == k2) = true := by simp [h2]
        simp [docLookup, List.find?, e1, e2]
      · have e2 : (hd.1 == k2) = false := by simp [h2]
        simpa [docLookup, List.find?, e1, e2] using ih

/-- Setting a key makes it present with the given value. -/
theorem docLookup_assocSet_self (d : Doc) (k : String) (v : J) :
    docLookup (assocSet d k v) k = some v := by
  unfold assocSet
  by_cases ha : (d.any (fun p => p.1 == k)) = true
  · rw [if_pos ha]
    exact docLookup_map_set_self k v d ha
  · have ha2 : (d.any (fun p => p.1 == k)) = false := Bool.eq_false_iff.mpr ha
    rw [if_neg (by simp [ha2])]
    unfold docLookup
    rw [List.find?_append]
    have hnone : d.find? (fun p => p.1 == k) = Option.none :=
      List.find?_eq_none.mpr (List.any_eq_false.mp ha2)
    simp [hnone, List.find?]

/-- Setting one key leaves every other key unchanged. -/
theorem docLookup_assocSet_ne (d : Doc) (k k2 : String) (v : J)
    (hne : k2 ≠ k) :
    docLookup (assocSet d k v) k2 = docLookup d k2 := by
  unfold assocSet
  by_cases ha : (d.any (fun p => p.1 == k)) = true
  · rw [if_pos ha]
    exact docLookup_map_set_ne k k2 v hne d
  · have ha2 : (d.any (fun p => p.1 == k)) = false := Bool.eq_false_iff.mpr ha
    rw [if_neg (by simp [ha2])]
    unfold docLookup
    rw [List.find?_append]
    cases e : d.find? (fun p => p.1 == k2) with
    | none =>
      have e2 : (k == k2) = false := by
        simp only [beq_eq_false_iff_ne, ne_eq]
        exact fun h => hne h.symm
      simp [e, List.find?, e2]
    | some x => simp [e]

/-- Appending entries never removes a present key. -/
theorem docLookup_append_isSome (d l : Doc) (k2 : String)
    (h : (docLookup d k2).isSome = true) :
    (docLookup (d ++ l) k2).isSome = true := by
  unfold docLookup at h ⊢
  rw [List.find?_append]
  cases e : (d.find? fun p => p.1 == k2) with
  | none => rw [e] at h; simp at h
  | some x => simp [e]

/-- Setting any key never removes a present key. -/
theorem docLookup_assocSet_isSome (d : Doc) (k k2 : String) (v : J)
    (h : (docLookup d k2).isSome = true) :
    (docLookup (assocSet d k v) k2).isSome = true := by
  by_cases hk : k2 = k
  · subst hk
    simp [docLookup_assocSet_self]
  · rw [docLookup_assocSet_ne d k k2 v hk]
    exact h

/-- Whatever the default load-field processor returns contains an `id`: the
first statement rewrites it and the later loops never remove keys. -/
theorem processed_has_id (sch : Schema) (d lf : Doc)
    (h : process_load_fields sch d = .ok lf) :
    (docLookup lf "id").isSome = true := by
  unfold process_load_fields at h
  cases e1 : docLookup d "id" with
  | none => rw [e1] at h; exact Except.noConfusion h
  | some v =>
    rw [e1] at h
    simp only [expure, exbind_ok] at h
    cases e2 : pyInt v with
    | error e => rw [e2] at h; exact Except.noConfusion h
    | ok idn =>
      rw [e2] at h
      simp only [exbind_ok, expure, Except.ok.injEq] at h
      subst h
      have base : (docLookup (assocSet d "id" (J.int idn)) "id").isSome = true := by
        simp [docLookup_assocSet_self]
      have dt : ∀ (ks : List String) (d0 : Doc),
          (docLookup d0 "id").isSome = true →
          (docLookup (ks.foldl (fun lf k =>
            assocSet lf k (convert_str_to_datetime
              ((docLookup lf k).getD J.null))) d0) "id").isSome = true := by
        intro ks
        induction ks with
        | nil => intro d0 h0; simpa using h0
        | cons k ks ih =>
          intro d0 h0
          exact ih _ (docLookup_assocSet_isSome _ _ _ _ h0)
      have nl : ∀ (ks : List String) (d0 : Doc),
          (docLookup d0 "id").isSome = true →
          (docLookup (ks.foldl (fun lf k =>
            if (docLookup lf k).isSome then lf else lf ++ [(k, J.null)]) d0)
            "id").isSome = true := by
        intro ks
        induction ks with
        | nil => intro d0 h0; simpa using h0
        | cons k ks ih =>
          intro d0 h0
          refine ih _ ?_
          by_cases hp : (docLookup d0 k).isSome = true
          · simpa [hp] using h0
          · have hp2 : (docLookup d0 k).isSome = false := by
              simpa using hp
            simpa [hp2] using docLookup_append_isSome d0 [(k, J.null)] _ h0
      exact nl _ _ (dt _ _ base)

/-- The errors the default load-field processor can produce. -/
theorem process_load_fields_err (sch : Schema) (d : Doc) (e : Err)
    (h : process_load_fields sch d = .error e) :
    e = .keyErr "id" ∨ e = .valueErr "invalid literal for int()" ∨
      e = .typeErr "int() argument" := by
  unfold process_load_fields at h
  cases e1 : docLookup d "id" with
  | none =>
    rw [e1] at h
    simp only [exbind_err] at h
    cases h
    exact Or.inl rfl
  | some v =>
    rw [e1] at h
    simp only [expure, exbind_ok] at h
    cases e2 : pyInt v with
    | error e3 =>
      rw [e2] at h
      simp only [exbind_err] at h
      cases h
      cases v with
      | int n => simp [pyInt] at e2
      | bool b => simp [pyInt] at e2
      | str s =>
        cases e3' : s.toInt? with
        | none =>
          simp only [pyInt, e3'] at e2
          cases e2
          exact Or.inr (Or.inl rfl)
        | some n => simp [pyInt, e3'] at e2
      | numLit s =>
        cases e3' : s.toInt? with
        | none =>
          simp only [pyInt, e3'] at e2
          cases e2
          exact Or.inr (Or.inl rfl)
        | some n => simp [pyInt, e3'] at e2
      | null =>
        simp only [pyInt] at e2
        cases e2
        exact Or.inr (Or.inr rfl)
      | arr l =>
        simp only [pyInt] at e2
        cases e2
        exact Or.inr (Or.inr rfl)
      | obj l =>
        simp only [pyInt] at e2
        cases e2
        exact Or.inr (Or.inr rfl)
    | ok idn =>
      rw [e2] at h
      simp only [exbind_ok, expure] at h
      exact Except.noConfusion h

end Suspenders

namespace Suspenders

/-- C9 counterexample: a flat document with no `id` fails reconstruction
with `KeyError("id")` from `load_fields["id"]` in `process_load_fields` —
an unrelated error raised *before* the structured
`TypeError("id not present in load_fields...")` check can run. -/
theorem C9_keyerror_first :
    type_from_fields ⟨[], [], []⟩ [("name", J.str "x")] =
      .error (.keyErr "id") ∧
    Err.keyErr "id" ≠ Err.typeErr "id not present in load_fields" :=
  ⟨rfl, by decide⟩

/-- C9 amended: with the default load-field processor, a flat document in
which no `id` survives the complex-field split fails with `KeyError("id")`
raised by the processor's first statement, not with the structured
missing-identifier `TypeError`; indeed the structured check is unreachable
through the default processor — `type_from_fields` never produces that
error, whatever the document. -/
theorem C9_missing_id (sch : Schema) (base : Doc)
    (hid : docLookup
      (base.filter (fun p => !(sch.complexFields.contains p.1))) "id" =
        Option.none) :
    type_from_fields sch base = .error (.keyErr "id") ∧
    (∀ (sch2 : Schema) (base2 : Doc),
      type_from_fields sch2 base2 ≠
        .error (.typeErr "id not present in load_fields")) := by
  constructor
  · simp only [type_from_fields, process_load_fields]
    rw [hid]
    rfl
  · intro sch2 base2 hcon
    simp only [type_from_fields] at hcon
    cases e1 : process_load_fields sch2
        (base2.filter (fun p => !(sch2.complexFields.contains p.1))) with
    | error e =>
      rw [e1] at hcon
      simp only [exbind_err] at hcon
      cases hcon
      rcases process_load_fields_err _ _ _ e1 with h | h | h <;>
        exact absurd h (by decide)
    | ok lf =>
      rw [e1] at hcon
      simp only [exbind_ok] at hcon
      rw [if_pos (processed_has_id _ _ _ e1)] at hcon
      exact Except.noConfusion hcon

/-- Witness for `C9_missing_id` at the empty document. -/
theorem C9_missing_id_witness :
    type_from_fields ⟨[], [], []⟩ [] = .error (.keyErr "id") ∧
    (∀ (sch2 : Schema) (base2 : Doc),
      type_from_fields sch2 base2 ≠
        .error (.typeErr "id not present in load_fields")) :=
  C9_missing_id ⟨[], [], []⟩ [] rfl

end Suspenders

namespace Suspenders

set_option maxHeartbeats 1600000 in
/-- C5: two membership filters on the same field merge.  Chaining
`filter(field__in=[1,2]).filter(field__in=[2,3])` (both filters land on the
`"+field"` key) leaves a *single* combined `in` filter with value set
`[1, 2, 3]` in the filter dict, and the compiled query holds one combined
`terms` clause — in strict (`DEBUG`) mode just as silently as in permissive
mode.  In general, `FilterDict.__check` attempts the merge first and reports
nothing when it succeeds; only when the merge fails is the overwrite
reported — raised as `ValueError` in strict mode, logged (and the new filter
stored) otherwise. -/
theorem C5_filter_merge :
    (∀ debug : Bool,
      let s0 := initQS emptyHeap
      let s1 := applyMutator debug s0.1 s0.2
        (.filterM [Filter.mk "field" .inK [J.int 1, J.int 2]])
      let q1 := s1.2.toOption.getD s0.2
      let s2 := applyMutator debug s1.1 q1
        (.filterM [Filter.mk "field" .inK [J.int 2, J.int 3]])
      let q2 := s2.2.toOption.getD s0.2
      s1.2 = .ok q1 ∧ s2.2 = .ok q2 ∧
      hGetF s2.1 q2.filtersRef =
        [("+field", "+",
          Filter.mk "field" .inK [J.int 1, J.int 2, J.int 3])] ∧
      serializedQueryH s2.1 q2 =
        .ok (J.obj [("constant_score", J.obj [("filter", J.obj [("bool",
          J.obj [("must", J.arr [J.obj [("terms", J.obj [("field",
            J.arr [J.int 1, J.int 2, J.int 3])])]])])])])])) ∧
    (∀ (debug : Bool) (fd : FD) (key : String) (v pf m : Filter)
        (pt : String),
      FD.lookup fd key = some (pt, pf) → Filter.merge pf v = some m →
        FD.check debug fd key v = .ok (m, false)) ∧
    (∀ (fd : FD) (key : String) (v pf : Filter) (pt : String),
      FD.lookup fd key = some (pt, pf) → Filter.merge pf v = Option.none →
        FD.check true fd key v = .error (.valueErr
          ("[" ++ key ++
            "] already set within query set and is being overriden!")) ∧
        FD.check false fd key v = .ok (v, true)) := by
  refine ⟨?_, ?_, ?_⟩
  · intro debug
    cases debug <;> exact ⟨rfl, rfl, by decide, by decide⟩
  · intro debug fd key v pf m pt h1 h2
    simp [FD.check, h1, h2]
  · intro fd key v pf pt h1 h2
    constructor
    · simp [FD.check, h1, h2]
    · simp [FD.check, h1, h2]

/-- Witness for `C5_filter_merge`: the merge branch and both report branches
of `FilterDict.__check` at concrete filters. -/
theorem C5_filter_merge_witness :
    FD.check false [("+f", "+", Filter.mk "f" .inK [J.int 1])] "+f"
        (Filter.mk "f" .inK [J.int 2]) =
      .ok (Filter.mk "f" .inK [J.int 1, J.int 2], false) ∧
    FD.check true [("f", "+", Filter.mk "f" .eqK [J.int 1])] "f"
        (Filter.mk "f" .eqK [J.int 2]) =
      .error (.valueErr
        ("[" ++ "f" ++ "] already set within query set and is being overriden!")) ∧
    FD.check false [("f", "+", Filter.mk "f" .eqK [J.int 1])] "f"
        (Filter.mk "f" .eqK [J.int 2]) =
      .ok (Filter.mk "f" .eqK [J.int 2], true) :=
  ⟨C5_filter_merge.2.1 false [("+f", "+", Filter.mk "f" .inK [J.int 1])] "+f"
      (Filter.mk "f" .inK [J.int 2]) (Filter.mk "f" .inK [J.int 1])
      (Filter.mk "f" .inK [J.int 1, J.int 2]) "+" rfl rfl,
   (C5_filter_merge.2.2 [("f", "+", Filter.mk "f" .eqK [J.int 1])] "f"
      (Filter.mk "f" .eqK [J.int 2]) (Filter.mk "f" .eqK [J.int 1]) "+"
      rfl rfl).1,
   (C5_filter_merge.2.2 [("f", "+", Filter.mk "f" .eqK [J.int 1])] "f"
      (Filter.mk "f" .eqK [J.int 2]) (Filter.mk "f" .eqK [J.int 1]) "+"
      rfl rfl).2⟩

end Suspenders

namespace Suspenders

/-- Reading `getD` after `set` at a different index. -/
theorem getD_set_ne {α : Type} (l : List α) (d a : α) (i j : Nat)
    (h : i ≠ j) : (l.set i a).getD j d = l.getD j d := by
  simp only [List.getD_eq_getD_get?, List.get?_eq_getElem?,
    List.getElem?_set_ne h]

/-- The heap extends itself. -/
theorem preservesRefl (h : Heap) : Preserves h h :=
  ⟨le_refl _, le_refl _, le_refl _, le_refl _,
   fun _ _ => rfl, fun _ _ => rfl, fun _ _ => rfl, fun _ _ => rfl⟩

/-- Allocating a query-list container preserves the original heap view. -/
theorem allocQ_step (h h1 : Heap) (v : List Query) (hp : Preserves h h1) :
    Preserves h (allocQ h1 v).1 := by
  refine ⟨?_, hp.lenS, hp.lenF, hp.lenA, ?_, hp.readS, hp.readF, hp.readA⟩
  · simp only [allocQ, List.length_append, List.length_cons, List.length_nil]
    exact le_trans hp.lenQ (Nat.le_add_right _ _)
  · intro r hr
    have hr1 : r < h1.queryStore.length := lt_of_lt_of_le hr hp.lenQ
    simp only [allocQ, hGetQ]
    rw [List.getD_append _ _ _ _ hr1]
    exact hp.readQ r hr

/-- Allocating a sort-list container preserves the original heap view. -/
theorem allocS_step (h h1 : Heap) (v : List (String × String))
    (hp : Preserves h h1) : Preserves h (allocS h1 v).1 := by
  refine ⟨hp.lenQ, ?_, hp.lenF, hp.lenA, hp.readQ, ?_, hp.readF, hp.readA⟩
  · simp only [allocS, List.length_append, List.length_cons, List.length_nil]
    exact le_trans hp.lenS (Nat.le_add_right _ _)
  · intro r hr
    have hr1 : r < h1.sortStore.length := lt_of_lt_of_le hr hp.lenS
    simp only [allocS, hGetS]
    rw [List.getD_append _ _ _ _ hr1]
    exact hp.readS r hr

/-- Allocating a filter-dict container preserves the original heap view. -/
theorem allocF_step (h h1 : Heap) (v : FD) (hp : Preserves h h1) :
    Preserves h (allocF h1 v).1 := by
  refine ⟨hp.lenQ, hp.lenS, ?_, hp.lenA, hp.readQ, hp.readS, ?_, hp.readA⟩
  · simp only [allocF, List.length_append, List.length_cons, List.length_nil]
    exact le_trans hp.lenF (Nat.le_add_right _ _)
  · intro r hr
    have hr1 : r < h1.filterStore.length := lt_of_lt_of_le hr hp.lenF
    simp only [allocF, hGetF]
    rw [List.getD_append _ _ _ _ hr1]
    exact hp.readF r hr

/-- Allocating an aggregation-list container preserves the original heap
view. -/
theorem allocA_step (h h1 : Heap) (v : List Agg) (hp : Preserves h h1) :
    Preserves h (allocA h1 v).1 := by
  refine ⟨hp.lenQ, hp.lenS, hp.lenF, ?_, hp.readQ, hp.readS, hp.readF, ?_⟩
  · simp only [allocA, List.length_append, List.length_cons, List.length_nil]
    exact le_trans hp.lenA (Nat.le_add_right _ _)
  · intro r hr
    have hr1 : r < h1.aggStore.length := lt_of_lt_of_le hr hp.lenA
    simp only [allocA, hGetA]
    rw [List.getD_append _ _ _ _ hr1]
    exact hp.readA r hr

/-- Writing a query-list cell outside the original heap preserves its view. -/
theorem setQ_step (h h1 : Heap) (v : List Query) (r0 : Nat)
    (hp : Preserves h h1) (hr0 : h.queryStore.length ≤ r0) :
    Preserves h (setQ h1 r0 v) := by
  refine ⟨?_, hp.lenS, hp.lenF, hp.lenA, ?_, hp.readS, hp.readF, hp.readA⟩
  · simpa [setQ] using hp.lenQ
  · intro r hr
    simp only [setQ, hGetQ]
    rw [getD_set_ne _ _ _ _ _ (by omega)]
    exact hp.readQ r hr

/-- Writing a filter-dict cell outside the original heap preserves its
view. -/
theorem setF_step (h h1 : Heap) (v : FD) (r0 : Nat)
    (hp : Preserves h h1) (hr0 : h.filterStore.length ≤ r0) :
    Preserves h (setF h1 r0 v) := by
  refine ⟨hp.lenQ, hp.lenS, ?_, hp.lenA, hp.readQ, hp.readS, ?_, hp.readA⟩
  · simpa [setF] using hp.lenF
  · intro r hr
    simp only [setF, hGetF]
    rw [getD_set_ne _ _ _ _ _ (by omega)]
    exact hp.readF r hr

/-- Writing an aggregation-list cell outside the original heap preserves its
view. -/
theorem setA_step (h h1 : Heap) (v : List Agg) (r0 : Nat)
    (hp : Preserves h h1) (hr0 : h.aggStore.length ≤ r0) :
    Preserves h (setA h1 r0 v) := by
  refine ⟨hp.lenQ, hp.lenS, hp.lenF, ?_, hp.readQ, hp.readS, hp.readF, ?_⟩
  · simpa [setA] using hp.lenA
  · intro r hr
    simp only [setA, hGetA]
    rw [getD_set_ne _ _ _ _ _ (by omega)]
    exact hp.readA r hr

/-- Lemma: `copy` only allocates; the original heap view is preserved. -/
theorem copyQS_preserves (h : Heap) (q : QS) :
    Preserves h (copyQS h q).1 := by
  unfold copyQS
  exact allocA_step _ _ _ (allocF_step _ _ _ (allocS_step _ _ _
    (allocQ_step _ _ _ (allocQ_step _ _ _ (allocQ_step _ _ _
      (preservesRefl h))))))

/-- The references of a fresh copy are the allocation points. -/
theorem copyQS_refs (h : Heap) (q : QS) :
    (copyQS h q).2.mustRef = h.queryStore.length ∧
    (copyQS h q).2.optRef = h.queryStore.length + 1 ∧
    (copyQS h q).2.negRef = h.queryStore.length + 2 ∧
    (copyQS h q).2.sortRef = h.sortStore.length ∧
    (copyQS h q).2.filtersRef = h.filterStore.length ∧
    (copyQS h q).2.aggsRef = h.aggStore.length ∧
    (copyQS h q).2.resultSet = Option.none := by
  refine ⟨rfl, ?_, ?_, rfl, rfl, rfl, rfl⟩ <;>
    simp [copyQS, allocQ, allocS, allocF, allocA]

end Suspenders

namespace Suspenders

/-- Every mutator call only allocates fresh containers and writes through the
copy's references, never through the original's: the original heap view is
preserved. -/
theorem applyMutator_preserves (debug : Bool) (h : Heap) (q : QS)
    (m : Mutator) : Preserves h (applyMutator debug h q m).1 := by
  have hp := copyQS_preserves h q
  have refs := copyQS_refs h q
  cases m with
  | minScoreM s => exact hp
  | matchTextM key values =>
    exact setQ_step _ _ _ _ hp (le_of_eq refs.1.symm)
  | addOptionalQueryM qq =>
    exact setQ_step _ _ _ _ hp
      (le_trans (Nat.le_succ _) (le_of_eq refs.2.1.symm))
  | sortedByM orderings =>
    simp only [applyMutator]
    cases e : sortedByList orderings with
    | error err => exact hp
    | ok result => exact allocS_step _ _ _ hp
  | aggregationM term size minDoc order excludeArg includeArg wth regex script =>
    exact setA_step _ _ _ _ hp (le_of_eq refs.2.2.2.2.2.1.symm)
  | filterM fs =>
    simp only [applyMutator]
    cases e : addFilters (FD.add_positive debug)
        (hGetF (copyQS h q).1 (copyQS h q).2.filtersRef) fs with
    | error err => exact hp
    | ok fd2 => exact setF_step _ _ _ _ hp (le_of_eq refs.2.2.2.2.1.symm)
  | excludeM fs =>
    simp only [applyMutator]
    cases e : addFilters (FD.add_negative debug)
        (hGetF (copyQS h q).1 (copyQS h q).2.filtersRef) fs with
    | error err => exact hp
    | ok fd2 => exact setF_step _ _ _ _ hp (le_of_eq refs.2.2.2.2.1.symm)
  | suppressM fs =>
    exact setQ_step _ _ _ _ hp
      (le_trans (Nat.le_add_right _ 2) (le_of_eq refs.2.2.1.symm))
  | noneM => exact hp
  | noPagesM => exact hp
  | enableHitCounterM => exact hp
  | disableHitCounterM => exact hp
  | paginateM page psize =>
    simp only [applyMutator]
    split_ifs <;> exact hp
  | sliceM start stop =>
    simp only [applyMutator]
    split_ifs <;> exact hp
  | allM => exact hp

/-- A preserved heap compiles the same document for a well-formed query
set. -/
theorem toDictH_congr (h h2 : Heap) (q : QS) (hp : Preserves h h2)
    (hw : WF h q) : toDictH h2 q = toDictH h q := by
  unfold toDictH
  rw [hp.readQ q.mustRef hw.1, hp.readQ q.optRef hw.2.1,
    hp.readQ q.negRef hw.2.2.1, hp.readS q.sortRef hw.2.2.2.1,
    hp.readF q.filtersRef hw.2.2.2.2.1, hp.readA q.aggsRef hw.2.2.2.2.2]

end Suspenders

namespace Suspenders

/-- A successful mutator call returns a query set whose container references
were all allocated during the call (at or beyond the original store
boundaries) and whose result cache is clear. -/
theorem applyMutator_ok_refs (debug : Bool) (h : Heap) (q : QS) (m : Mutator)
    (q2 : QS) (hok : (applyMutator debug h q m).2 = .ok q2) :
    q2.resultSet = Option.none ∧
    h.queryStore.length ≤ q2.mustRef ∧ h.queryStore.length ≤ q2.optRef ∧
    h.queryStore.length ≤ q2.negRef ∧ h.sortStore.length ≤ q2.sortRef ∧
    h.filterStore.length ≤ q2.filtersRef ∧ h.aggStore.length ≤ q2.aggsRef := by
  have base : (copyQS h q).2.resultSet = Option.none ∧
      h.queryStore.length ≤ (copyQS h q).2.mustRef ∧
      h.queryStore.length ≤ (copyQS h q).2.optRef ∧
      h.queryStore.length ≤ (copyQS h q).2.negRef ∧
      h.sortStore.length ≤ (copyQS h q).2.sortRef ∧
      h.filterStore.length ≤ (copyQS h q).2.filtersRef ∧
      h.aggStore.length ≤ (copyQS h q).2.aggsRef := by
    obtain ⟨r1, r2, r3, r4, r5, r6, r7⟩ := copyQS_refs h q
    exact ⟨r7, le_of_eq r1.symm,
      le_trans (Nat.le_succ _) (le_of_eq r2.symm),
      le_trans (Nat.le_add_right _ 2) (le_of_eq r3.symm),
      le_of_eq r4.symm, le_of_eq r5.symm, le_of_eq r6.symm⟩
  cases m with
  | minScoreM s =>
    simp only [applyMutator] at hok
    injection hok with h2
    subst h2
    exact base
  | matchTextM key values =>
    simp only [applyMutator] at hok
    injection hok with h2
    subst h2
    exact base
  | addOptionalQueryM qq =>
    simp only [applyMutator] at hok
    injection hok with h2
    subst h2
    exact base
  | sortedByM orderings =>
    simp only [applyMutator] at hok
    cases e : sortedByList orderings with
    | error err =>
      rw [e] at hok
      exact Except.noConfusion hok
    | ok result =>
      rw [e] at hok
      injection hok with h2
      subst h2
      exact ⟨base.1, base.2.1, base.2.2.1, base.2.2.2.1,
        (copyQS_preserves h q).lenS, base.2.2.2.2.2⟩
  | aggregationM term size minDoc order excludeArg includeArg wth regex script =>
    simp only [applyMutator] at hok
    injection hok with h2
    subst h2
    exact base
  | filterM fs =>
    simp only [applyMutator] at hok
    cases e : addFilters (FD.add_positive debug)
        (hGetF (copyQS h q).1 (copyQS h q).2.filtersRef) fs with
    | error err =>
      rw [e] at hok
      exact Except.noConfusion hok
    | ok fd2 =>
      rw [e] at hok
      injection hok with h2
      subst h2
      exact base
  | excludeM fs =>
    simp only [applyMutator] at hok
    cases e : addFilters (FD.add_negative debug)
        (hGetF (copyQS h q).1 (copyQS h q).2.filtersRef) fs with
    | error err =>
      rw [e] at hok
      exact Except.noConfusion hok
    | ok fd2 =>
      rw [e] at hok
      injection hok with h2
      subst h2
      exact base
  | suppressM fs =>
    simp only [applyMutator] at hok
    injection hok with h2
    subst h2
    exact base
  | noneM =>
    simp only [applyMutator] at hok
    injection hok with h2
    subst h2
    exact base
  | noPagesM =>
    simp only [applyMutator] at hok
    injection hok with h2
    subst h2
    exact base
  | enableHitCounterM =>
    simp only [applyMutator] at hok
    injection hok with h2
    subst h2
    exact base
  | disableHitCounterM =>
    simp only [applyMutator] at hok
    injection hok with h2
    subst h2
    exact base
  | paginateM page psize =>
    simp only [applyMutator] at hok
    split_ifs at hok
    all_goals first
      | exact Except.noConfusion hok
      | (injection hok with h2; subst h2; exact base)
  | sliceM start stop =>
    simp only [applyMutator] at hok
    split_ifs at hok
    all_goals first
      | exact Except.noConfusion hok
      | (injection hok with h2; subst h2; exact base)
  | allM =>
    simp only [applyMutator] at hok
    injection hok with h2
    subst h2
    exact base

/-- C2: every mutator (`filter`, `exclude`, `suppress`, `match_text`,
`add_optional_query`, `sorted_by`, `aggregation`, `paginate`, `slice`,
`min_score`, `none`, `no_pages`, `enable_hit_counter`,
`disable_hit_counter`, `all`) leaves the original query set untouched: its
compiled document `to_dict()` is unchanged, as is every container it
references; and a successful call returns a *new* query set — fresh
container references, distinct from the original's, with a clear result
cache. -/
theorem C2_immutability (debug : Bool) (h : Heap) (q : QS) (m : Mutator)
    (hw : WF h q) :
    toDictH (applyMutator debug h q m).1 q = toDictH h q ∧
    hGetQ (applyMutator debug h q m).1 q.mustRef = hGetQ h q.mustRef ∧
    hGetQ (applyMutator debug h q m).1 q.optRef = hGetQ h q.optRef ∧
    hGetQ (applyMutator debug h q m).1 q.negRef = hGetQ h q.negRef ∧
    hGetS (applyMutator debug h q m).1 q.sortRef = hGetS h q.sortRef ∧
    hGetF (applyMutator debug h q m).1 q.filtersRef = hGetF h q.filtersRef ∧
    hGetA (applyMutator debug h q m).1 q.aggsRef = hGetA h q.aggsRef ∧
    (∀ q2, (applyMutator debug h q m).2 = .ok q2 →
      q2.resultSet = Option.none ∧
      q2.mustRef ≠ q.mustRef ∧ q2.optRef ≠ q.optRef ∧ q2.negRef ≠ q.negRef ∧
      q2.sortRef ≠ q.sortRef ∧ q2.filtersRef ≠ q.filtersRef ∧
      q2.aggsRef ≠ q.aggsRef) := by
  have hp := applyMutator_preserves debug h q m
  obtain ⟨w1, w2, w3, w4, w5, w6⟩ := hw
  refine ⟨toDictH_congr _ _ _ hp ⟨w1, w2, w3, w4, w5, w6⟩,
    hp.readQ _ w1, hp.readQ _ w2, hp.readQ _ w3, hp.readS _ w4,
    hp.readF _ w5, hp.readA _ w6, ?_⟩
  intro q2 hok
  obtain ⟨f1, f2, f3, f4, f5, f6, f7⟩ :=
    applyMutator_ok_refs debug h q m q2 hok
  exact ⟨f1, by omega, by omega, by omega, by omega, by omega, by omega⟩

/-- Witness for `C2_immutability`: the `none()` mutator on a fresh query set
leaves the original's compiled document unchanged. -/
theorem C2_immutability_witness :
    toDictH (applyMutator false (initQS emptyHeap).1 (initQS emptyHeap).2
        Mutator.noneM).1 (initQS emptyHeap).2 =
      toDictH (initQS emptyHeap).1 (initQS emptyHeap).2 :=
  (C2_immutability false (initQS emptyHeap).1 (initQS emptyHeap).2
    Mutator.noneM (by decide)).1

end Suspenders

namespace Suspenders

/-- Mapping with `List.map` preserves emptiness. -/
theorem isEmpty_map {α β : Type} (f : α → β) (l : List α) :
    (l.map f).isEmpty = l.isEmpty := by cases l <;> rfl

/-- Serializing filters used in query position never fails: each one
serializes to its filter fragment. -/
theorem qListToDict_filterQ (fs : List Filter) :
    qListToDict (fs.map Query.filterQ) = .ok (fs.map Filter.to_dict) := by
  induction fs with
  | nil => rfl
  | cons f fs ih => simp [qListToDict, qToDict, ih]

/-- A non-empty well-polarized filter dict yields a positive or a negative
filter. -/
theorem FD.pos_neg_nonempty (fd : FD)
    (hwf : FD.wellFormedPolarity fd = true) (hne : fd ≠ []) :
    ¬((FD.positive_filters fd).isEmpty = true ∧
      (FD.negative_filters fd).isEmpty = true) := by
  cases fd with
  | nil => exact absurd rfl hne
  | cons hd tl =>
    rintro ⟨hp, hn⟩
    have hhd := (List.all_eq_true.mp hwf) hd (by simp)
    rcases Bool.or_eq_true_iff.mp hhd with h | h
    · have : hd.2.1 = "+" := by simpa using h
      simp [FD.positive_filters, this] at hp
    · have : hd.2.1 = "-" := by simpa using h
      simp [FD.negative_filters, this] at hn

/-- The filter-context `BoolQuery` always constructs for a non-empty
well-polarized filter dict. -/
theorem boolQueryMk_filterCtx (fd : FD)
    (hwf : FD.wellFormedPolarity fd = true) (hne : fd ≠ []) :
    boolQueryMk ((FD.positive_filters fd).map Query.filterQ) []
        ((FD.negative_filters fd).map Query.filterQ) Option.none
        Option.none true =
      .ok (.boolQ Option.none ((FD.positive_filters fd).map Query.filterQ) []
        ((FD.negative_filters fd).map Query.filterQ) Option.none) := by
  unfold boolQueryMk
  rw [if_neg (by simp [msmTruthy])]
  rw [if_neg (by simp)]
  rw [if_neg ?hcon]
  case hcon =>
    rw [isEmpty_map, isEmpty_map]
    intro hcon
    exact FD.pos_neg_nonempty fd hwf hne ⟨hcon.1, hcon.2.2⟩

/-- Serialization of the filter-context bool gives the spec's shape: `must`
holds the positive filters, `must_not` the negative ones. -/
theorem qToDict_filterCtx (fd : FD) :
    qToDict (.boolQ Option.none ((FD.positive_filters fd).map Query.filterQ)
        [] ((FD.negative_filters fd).map Query.filterQ) Option.none) =
      .ok (specFilterBoolJ fd) := by
  simp only [qToDict, qListToDict_filterQ, qListToDict, qOptToDict,
    exbind_ok, expure]
  simp [specFilterBoolJ, msmTruthy, isEmpty_map]

/-- The inner search `BoolQuery` always constructs when a search context
exists. -/
theorem boolQueryMk_inner (must maybe : List Query) (msm : Int)
    (hs : must ≠ [] ∨ maybe ≠ []) :
    boolQueryMk must maybe [] Option.none
        (if !maybe.isEmpty then some msm else Option.none) false =
      .ok (.boolQ (if !maybe.isEmpty then some msm else Option.none)
        must maybe [] Option.none) := by
  unfold boolQueryMk
  rw [if_neg ?h1]
  case h1 =>
    rintro ⟨hm, he⟩
    rw [he] at hm
    simp [List.isEmpty_iff.mp he, msmTruthy] at hm
  rw [if_neg (by simp)]
  rw [if_neg ?h3]
  case h3 =>
    rintro ⟨hm, he, _⟩
    rcases hs with h | h
    · exact h (List.isEmpty_iff.mp hm)
    · exact h (List.isEmpty_iff.mp he)

/-- The outer wrapping `BoolQuery` of `_serialized_query` always
constructs: its `must` list is the singleton inner bool. -/
theorem boolQueryMk_outer (inner fb : Query) :
    boolQueryMk [inner] [] [] (some fb) Option.none false =
      .ok (.boolQ Option.none [inner] [] [] (some fb)) := rfl

/-- The `minimum_should_match` fragment of the serialized inner bool equals
the spec's formulation. -/
theorem msm_fragment (maybe : List Query) (msm : Int) :
    (if msmTruthy (if !maybe.isEmpty then some msm else Option.none) then
        [("minimum_should_match",
          J.int ((if !maybe.isEmpty then some msm else Option.none).getD 0))]
      else []) =
      (if !maybe.isEmpty && msm != 0 then
        [("minimum_should_match", J.int msm)]
      else ([] : List (String × J))) := by
  cases e : maybe.isEmpty <;> simp [msmTruthy, e]

/-- C1 amended: the compiled query fragment of `_serialized_query`, for a
query set with no negative-boost (suppress) queries, selects its shape from
must/should/filter state exactly as the claim says: no queries and no
filters gives `{"match_all": {}}`; only filters gives a `constant_score`
wrapping the filter-context bool (positive filters under `must`, negative
under `must_not`); search context plus filters gives an outer bool whose
`must` holds the inner search bool (with `minimum_should_match` only when a
should clause exists) and whose `filter` key holds the filter-context
bool. -/
theorem C1_context_selection (must maybe : List Query) (fd : FD) (msm : Int)
    (hwf : FD.wellFormedPolarity fd = true) :
    (must = [] → maybe = [] → fd = [] →
      serializedQuery must maybe [] fd msm = .ok specMatchAllJ) ∧
    (must = [] → maybe = [] → fd ≠ [] →
      serializedQuery must maybe [] fd msm = .ok (specConstScoreJ fd)) ∧
    (∀ mj sj : List J, (must ≠ [] ∨ maybe ≠ []) → fd ≠ [] →
      qListToDict must = .ok mj → qListToDict maybe = .ok sj →
      serializedQuery must maybe [] fd msm =
        .ok (specOuterBoolJ (specInnerBoolJ must maybe mj sj msm)
          (specFilterBoolJ fd))) := by
  refine ⟨?_, ?_, ?_⟩
  · intro h1 h2 h3
    subst h1; subst h2; subst h3
    rfl
  · intro h1 h2 h3
    subst h1; subst h2
    have hfe : fd.isEmpty = false := by
      rw [Bool.eq_false_iff]
      exact fun hcon => h3 (List.isEmpty_iff.mp hcon)
    simp [serializedQuery, FD.has_values, hfe,
      boolQueryMk_filterCtx fd hwf h3, qToDict, qListToDict_filterQ,
      qListToDict, qOptToDict, specConstScoreJ, specFilterBoolJ,
      isEmpty_map, msmTruthy]
  · intro mj sj hs hf hmj hsj
    have hse : (!must.isEmpty || !maybe.isEmpty) = true := by
      rcases hs with h | h
      · have : must.isEmpty = false := by
          rw [Bool.eq_false_iff]
          exact fun hcon => h (List.isEmpty_iff.mp hcon)
        simp [this]
      · have : maybe.isEmpty = false := by
          rw [Bool.eq_false_iff]
          exact fun hcon => h (List.isEmpty_iff.mp hcon)
        simp [this]
    have hfe : fd.isEmpty = false := by
      rw [Bool.eq_false_iff]
      exact fun hcon => hf (List.isEmpty_iff.mp hcon)
    simp only [serializedQuery, hse, FD.has_values, hfe, Bool.not_false,
      if_true, boolQueryMk_inner must maybe msm hs,
      boolQueryMk_filterCtx fd hwf hf, boolQueryMk_outer, exbind_ok, expure]
    simp [qToDict, qListToDict, qOptToDict, hmj, hsj, qListToDict_filterQ,
      msm_fragment, specOuterBoolJ, specInnerBoolJ, specFilterBoolJ,
      isEmpty_map, msmTruthy]
    cases e : maybe.isEmpty <;> simp [e]

end Suspenders

namespace Suspenders

/-- C1 counterexample: the claimed shape selection does not hold for every
query set.  A query set holding only a negative-boost (suppress) query has
no must/should queries and no filters, yet its compiled fragment is not
`{"match_all": {}}` — `_serialized_query` wraps the result in a
`NegativeBoost` whose serialization raises `TypeError` (its inner helper
iterates the positive query object). -/
theorem C1_suppress_not_match_all :
    (let s0 := initQS emptyHeap
     let s1 := applyMutator false s0.1 s0.2
       (.suppressM [Filter.mk "f" .eqK [J.int 1]])
     let q1 := s1.2.toOption.getD s0.2
     hGetQ s1.1 q1.mustRef = [] ∧ hGetQ s1.1 q1.optRef = [] ∧
     hGetF s1.1 q1.filtersRef = [] ∧
     serializedQueryH s1.1 q1 = .error (.typeErr "object is not iterable") ∧
     serializedQueryH s1.1 q1 ≠ .ok specMatchAllJ) :=
  ⟨rfl, rfl, rfl, rfl, by decide⟩

/-- Witness for `C1_context_selection`: a filter-only query set compiles to
the `constant_score` shape. -/
theorem C1_context_selection_witness :
    serializedQuery [] [] [] [("+f", "+", Filter.mk "f" .inK [J.int 1])] 1 =
      .ok (specConstScoreJ [("+f", "+", Filter.mk "f" .inK [J.int 1])]) :=
  (C1_context_selection [] [] [("+f", "+", Filter.mk "f" .inK [J.int 1])] 1
    (by decide)).2.1 rfl rfl (by decide)

end Suspenders
